import Mathlib

/-!
# RobotWarz arena: a shallow embedding of `Arena.cpp`

The battle engine of the repository (`src/Arena.cpp`, `src/Arena.h`) is embedded as pure
functions on an explicit `Arena` state.

* C++ `int` values are mathematical integers (`Int`).  The arena of `main` is 5 x 8 and every
  quantity computed here stays far below `2^31`, so no machine overflow is modelled.
* `RobotBase*` pointers are natural numbers (`RobotPtr`); the objects they point to live in
  `Arena.heap`.  The null pointer is `none`.
* `std::vector<std::vector<Cell>> grid` is a total function from coordinates to cells together
  with the dimensions `rows` and `cols`; every access the code guards with a bounds test is
  guarded by the same test here.
* `rand()` reads the head of `Arena.randStream` and advances the stream.
* `double` is IEEE-754 binary64 with round-to-nearest-even (`Dyadic`).
-/

/-! ## Data model (`Arena.h`) -/

/-- The enumeration `CellType` of `Arena.h`, in declaration order. -/
inductive CellType where
  | EMPTY
  | OBSTACLE_FLAMETHROWER
  | OBSTACLE_PIT
  | OBSTACLE_MOUND
  | ROBOT
  | DEAD
deriving DecidableEq, Repr

/-- A pointer to a robot object; `Option RobotPtr` adds the null pointer. -/
abbrev RobotPtr := Nat

/-- Modelled from the spec: `RobotBase.h` is not part of the sources.  The record keeps the
fields of the agent handle of the data model that the arena reads or writes through the
capability contract: health, armor, weapon kind, move speed and the recorded position. -/
structure RobotBase where
  m_health : Int
  m_armor : Int
  m_weapon : Int
  m_move : Int
  m_location_row : Int
  m_location_col : Int
deriving DecidableEq, Repr

/-- The structure `Cell` of `Arena.h` with its default member initialisers. -/
structure Cell where
  type : CellType := CellType.EMPTY
  specialChar : String := ""
  robot : Option RobotPtr := none
deriving DecidableEq, Repr

/-- Modelled from the spec: `RadarObj.h` is not part of the sources.  One detection record:
the glyph of the detected kind, its row and its column. -/
structure RadarObj where
  m_type : Char
  m_row : Int
  m_col : Int
deriving DecidableEq, Repr

/-- The state of the class `Arena`: its data members, the robot objects its pointers refer
to, and the state of the process-wide generator seeded by its constructor. -/
structure Arena where
  rows : Int
  cols : Int
  grid : Int → Int → Cell
  robots : List RobotPtr
  heap : RobotPtr → RobotBase
  randStream : Nat → Nat

/-! ## The capability contract of a robot (`RobotBase`) -/

/-- Modelled from the spec: `RobotBase::get_current_location`, report current location. -/
def RobotBase.get_current_location (r : RobotBase) : Int × Int :=
  (r.m_location_row, r.m_location_col)

/-- Modelled from the spec: `RobotBase::get_health`, report health. -/
def RobotBase.get_health (r : RobotBase) : Int := r.m_health

/-- Modelled from the spec: `RobotBase::get_armor`, report armor. -/
def RobotBase.get_armor (r : RobotBase) : Int := r.m_armor

/-- Modelled from the spec: `RobotBase::get_weapon`, report weapon kind, as the integer code
the `switch` of `resolveShot` dispatches on. -/
def RobotBase.get_weapon (r : RobotBase) : Int := r.m_weapon

/-- Modelled from the spec: `RobotBase::take_damage`, receive damage; health has floor 0. -/
def RobotBase.take_damage (damage : Int) (r : RobotBase) : RobotBase :=
  { r with m_health := max 0 (r.m_health - damage) }

/-- Modelled from the spec: `RobotBase::reduce_armor`, receive armor reduction; the armor
level has floor 0. -/
def RobotBase.reduce_armor (amount : Int) (r : RobotBase) : RobotBase :=
  { r with m_armor := max 0 (r.m_armor - amount) }

/-- Modelled from the spec: `RobotBase::move_to`, receive a forced relocation. -/
def RobotBase.move_to (row col : Int) (r : RobotBase) : RobotBase :=
  { r with m_location_row := row, m_location_col := col }

/-! ## Access to the state -/

/-- Assignment to `grid[row][col]`. -/
def Arena.setCell (A : Arena) (row col : Int) (v : Cell) : Arena :=
  { A with grid := fun r c => if r = row ∧ c = col then v else A.grid r c }

/-- A mutating call `p->f(...)` on the robot object behind pointer `p`. -/
def Arena.updRobot (A : Arena) (p : RobotPtr) (f : RobotBase → RobotBase) : Arena :=
  { A with heap := fun q => if q = p then f (A.heap q) else A.heap q }

/-- One call of `rand()`: the value drawn and the state with the generator advanced. -/
def Arena.rand (A : Arena) : Nat × Arena :=
  (A.randStream 0, { A with randStream := fun n => A.randStream (n + 1) })

/-- The test `r < 0 || r >= rows || c < 0 || c >= cols` that guards grid accesses. -/
def Arena.outOfBounds (A : Arena) (r c : Int) : Prop :=
  r < 0 ∨ r ≥ A.rows ∨ c < 0 ∨ c ≥ A.cols

instance (A : Arena) (r c : Int) : Decidable (A.outOfBounds r c) := by
  unfold Arena.outOfBounds
  infer_instance

/-! ## `Arena::getNextCell` -/

/-- The table `directions[]` of `getNextCell`, for `radarDir` values 1 to 8. -/
def directions : List (Int × Int) :=
  [(-1, 0), (-1, 1), (0, 1), (1, 1), (1, 0), (1, -1), (0, -1), (-1, -1)]

/-- The function `Arena::getNextCell`; `%` of C++ truncates, hence `Int.tmod`. -/
def Arena.getNextCell (A : Arena) (row col radarDir : Int) : Int × Int :=
  if radarDir < 1 ∨ radarDir > 8 then (-1, -1)
  else
    let index := radarDir - 1
    let newRow := row + (directions.getD index.toNat (0, 0)).1
    let newCol := col + (directions.getD index.toNat (0, 0)).2
    if newRow < 0 ∨ newRow ≥ A.rows ∨ newCol < 0 ∨ newCol ≥ A.cols then
      (Int.tmod (newRow + A.rows) A.rows, Int.tmod (newCol + A.cols) A.cols)
    else (newRow, newCol)

/-- The compass of the capability contract, written from the spec: direction 1 is north
(one row up), and the directions 2 to 8 proceed clockwise. -/
def compassVector (d : Int) : Int × Int :=
  if d = 1 then (-1, 0)
  else if d = 2 then (-1, 1)
  else if d = 3 then (0, 1)
  else if d = 4 then (1, 1)
  else if d = 5 then (1, 0)
  else if d = 6 then (1, -1)
  else if d = 7 then (0, -1)
  else if d = 8 then (-1, -1)
  else (0, 0)

/-- The cell reached after `k` steps of the toroidal path from `(row, col)` along the compass
vector of `d`, written from the spec: coordinates wrap modulo the dimensions. -/
def torusCell (rows cols row col d : Int) (k : Nat) : Int × Int :=
  ((row + k * (compassVector d).1) % rows, (col + k * (compassVector d).2) % cols)

/-! ## `Arena::simulateRadar` -/

/-- The `switch (cell.type)` of `simulateRadar`: the glyph reported for a cell (`objTypeChar`)
and whether it stops the ray (`blocksRadar`).  The `default` label is unreachable for the six
enumerators. -/
def radarSwitch : CellType → Char × Bool
  | CellType.EMPTY => ('.', false)
  | CellType.ROBOT => ('R', true)
  | CellType.OBSTACLE_FLAMETHROWER => ('F', false)
  | CellType.OBSTACLE_PIT => ('P', false)
  | CellType.OBSTACLE_MOUND => ('M', true)
  | CellType.DEAD => ('X', true)

/-- The `while (true)` loop of `simulateRadar`, one iteration per unit of fuel; `none` means
the fuel ran out before the loop was left. -/
def Arena.simulateRadarLoop (A : Arena) (radarDir : Int) :
    Nat → Int → Int → List RadarObj → Option (List RadarObj)
  | 0, _, _, _ => none
  | fuel + 1, row, col, radarResults =>
    let next := A.getNextCell row col radarDir
    if A.outOfBounds next.1 next.2 then some radarResults
    else
      let cell := A.grid next.1 next.2
      let radarObj : RadarObj := ⟨(radarSwitch cell.type).1, next.1, next.2⟩
      if (radarSwitch cell.type).2 then some (radarResults ++ [radarObj])
      else A.simulateRadarLoop radarDir fuel next.1 next.2 (radarResults ++ [radarObj])

/-- The function `Arena::simulateRadar`, run for at most `fuel` iterations of its loop. -/
def Arena.simulateRadar (A : Arena) (robot : RobotPtr) (radarDir : Int) (fuel : Nat) :
    Option (List RadarObj) :=
  A.simulateRadarLoop radarDir fuel (A.heap robot).get_current_location.1
    (A.heap robot).get_current_location.2 []

/-- The glyph of a cell kind, written from the spec: `.` empty, `R` agent, `F` flamethrower,
`P` pit, `M` mound, `X` destroyed marker. -/
def kindGlyph : CellType → Char
  | CellType.EMPTY => '.'
  | CellType.OBSTACLE_FLAMETHROWER => 'F'
  | CellType.OBSTACLE_PIT => 'P'
  | CellType.OBSTACLE_MOUND => 'M'
  | CellType.ROBOT => 'R'
  | CellType.DEAD => 'X'

/-! ## Binary64 arithmetic of `applyDamageToCell` -/

/-- The number of binary digits of `n`, by halving at most `fuel` times. -/
def bitLength : Nat → Nat → Nat
  | 0, _ => 0
  | fuel + 1, n => if n = 0 then 0 else bitLength fuel (n / 2) + 1

/-- A value `num / 2 ^ scale`; the `double` values that occur are of this form. -/
structure Dyadic where
  num : Int
  scale : Nat
deriving DecidableEq, Repr

/-- Rounding of a natural numerator to 53 significant bits, to nearest, ties to even. -/
def roundNat (n : Nat) : Nat :=
  if bitLength n n ≤ 53 then n
  else
    let shift := bitLength n n - 53
    let q := n / 2 ^ shift
    let r := n % 2 ^ shift
    let half := 2 ^ (shift - 1)
    if r > half ∨ (r = half ∧ q % 2 = 1) then (q + 1) * 2 ^ shift else q * 2 ^ shift

/-- Rounding of an exact result to the nearest `double` (the values here are far from the
overflow and underflow thresholds, so only the significand is rounded). -/
def Dyadic.round (x : Dyadic) : Dyadic :=
  ⟨if x.num < 0 then -(roundNat x.num.natAbs : Int) else (roundNat x.num.natAbs : Int),
    x.scale⟩

/-- Conversion of an `int` to `double`. -/
def Dyadic.ofInt (i : Int) : Dyadic := Dyadic.round ⟨i, 0⟩

/-- Multiplication of two `double` values. -/
def Dyadic.mul (x y : Dyadic) : Dyadic :=
  Dyadic.round ⟨x.num * y.num, x.scale + y.scale⟩

/-- Subtraction of two `double` values. -/
def Dyadic.sub (x y : Dyadic) : Dyadic :=
  Dyadic.round ⟨x.num * 2 ^ y.scale - y.num * 2 ^ x.scale, x.scale + y.scale⟩

/-- Conversion of a `double` to `int`, which truncates toward zero. -/
def Dyadic.toInt (x : Dyadic) : Int := Int.tdiv x.num (2 ^ x.scale)

/-- The literal `0.1`: the `double` nearest to one tenth, `0x1.999999999999ap-4`. -/
def Dyadic.tenth : Dyadic := ⟨3602879701896397, 55⟩

/-- The expression `baseDamage * (1 - 0.1 * std::min(armor, 4))` of `applyDamageToCell`,
converted to the `int damage`. -/
def armorDamage (baseDamage armor : Int) : Int :=
  Dyadic.toInt (Dyadic.mul (Dyadic.ofInt baseDamage)
    (Dyadic.sub (Dyadic.ofInt 1) (Dyadic.mul Dyadic.tenth (Dyadic.ofInt (min armor 4)))))

/-! ## `Arena::applyDamageToCell` and `Arena::resolveShot` -/

/-- The function `Arena::applyDamageToCell`. -/
def Arena.applyDamageToCell (A : Arena) (row col baseDamage : Int) : Arena :=
  if A.outOfBounds row col then A
  else
    match (A.grid row col).robot with
    | some p =>
      if (A.grid row col).type = CellType.ROBOT then
        let damage := armorDamage baseDamage (A.heap p).get_armor
        let A1 := A.updRobot p (RobotBase.take_damage damage)
        let A2 := A1.updRobot p (RobotBase.reduce_armor 1)
        if (A2.heap p).get_health ≤ 0 then
          A2.setCell row col { A2.grid row col with type := CellType.EMPTY, robot := none }
        else A2
      else A
    | none => A

/-- The integers `lo, lo + 1, ..., hi` visited by `for (int i = lo; i <= hi; ++i)`. -/
def intRange (lo hi : Int) : List Int :=
  (List.range (hi + 1 - lo).toNat).map fun (i : Nat) => lo + (i : Int)

/-- The cells visited by the two nested loops of the Flamethrower and Grenade cases, rows
outermost, for the half-width `radius`. -/
def blockCells (targetRow targetCol radius : Int) : List (Int × Int) :=
  (intRange (targetRow - radius) (targetRow + radius)).flatMap fun r =>
    (intRange (targetCol - radius) (targetCol + radius)).map fun c => (r, c)

/-- The cells visited by the loop of the Railgun case. -/
def rowCells (targetRow cols : Int) : List (Int × Int) :=
  (intRange 0 (cols - 1)).map fun c => (targetRow, c)

/-- One statement `applyDamageToCell(r, c, lo + rand() % span)`. -/
def Arena.fireAt (lo span : Nat) (A : Arena) (rc : Int × Int) : Arena :=
  (A.rand).2.applyDamageToCell rc.1 rc.2 ((lo : Int) + ((A.rand).1 % span : Nat))

/-- The function `Arena::resolveShot`. -/
def Arena.resolveShot (A : Arena) (shooter : RobotPtr) (targetRow targetCol : Int) : Arena :=
  let shooterWeapon := (A.heap shooter).get_weapon
  let shooterRow := (A.heap shooter).get_current_location.1
  let shooterCol := (A.heap shooter).get_current_location.2
  if targetRow = shooterRow ∧ targetCol = shooterCol then A
  else if A.outOfBounds targetRow targetCol then A
  else if shooterWeapon = 0 then
    (blockCells targetRow targetCol 2).foldl (Arena.fireAt 30 21) A
  else if shooterWeapon = 1 then
    (rowCells targetRow A.cols).foldl (Arena.fireAt 10 11) A
  else if shooterWeapon = 2 then
    if |targetRow - shooterRow| ≤ 1 ∧ |targetCol - shooterCol| ≤ 1 then
      Arena.fireAt 50 11 A (targetRow, targetCol)
    else A
  else if shooterWeapon = 3 then
    (blockCells targetRow targetCol 1).foldl (Arena.fireAt 10 31) A
  else A

/-- The calls `applyDamageToCell(r, c, lo + rand() % span)` of a loop over `cells` when the
first roll of the loop is draw number `start` of the stream `draws`: the cell and the base
damage rolled for it, in program order. -/
def rolledCalls (draws : Nat → Nat) (lo span start : Nat) (cells : List (Int × Int)) :
    List ((Int × Int) × Int) :=
  (cells.enumFrom start).map fun ic => (ic.2, (lo : Int) + ((draws ic.1 % span : Nat) : Int))

/-- The sequence of calls `applyDamageToCell(r, c, baseDamage)` that `resolveShot` issues, in
program order. -/
def Arena.shotCalls (A : Arena) (shooter : RobotPtr) (targetRow targetCol : Int) :
    List ((Int × Int) × Int) :=
  let shooterWeapon := (A.heap shooter).get_weapon
  let shooterRow := (A.heap shooter).get_current_location.1
  let shooterCol := (A.heap shooter).get_current_location.2
  if targetRow = shooterRow ∧ targetCol = shooterCol then []
  else if A.outOfBounds targetRow targetCol then []
  else if shooterWeapon = 0 then
    rolledCalls A.randStream 30 21 0 (blockCells targetRow targetCol 2)
  else if shooterWeapon = 1 then
    rolledCalls A.randStream 10 11 0 (rowCells targetRow A.cols)
  else if shooterWeapon = 2 then
    if |targetRow - shooterRow| ≤ 1 ∧ |targetCol - shooterCol| ≤ 1 then
      rolledCalls A.randStream 50 11 0 [(targetRow, targetCol)]
    else []
  else if shooterWeapon = 3 then
    rolledCalls A.randStream 10 31 0 (blockCells targetRow targetCol 1)
  else []

/-- The state after `k` further calls of `rand()`. -/
def Arena.skip (A : Arena) (k : Nat) : Arena :=
  { A with randStream := fun n => A.randStream (n + k) }

/-- The calls of a list executed in order. -/
def Arena.applyCalls (A : Arena) (calls : List ((Int × Int) × Int)) : Arena :=
  calls.foldl (fun B call => B.applyDamageToCell call.1.1 call.1.2 call.2) A

/-- The footprint of a weapon, written from the spec table: Flamethrower (code 0) the 5x5
block centred on the target, Railgun (1) the whole target row, Hammer (2) the target cell
when it is within Chebyshev distance 1 of the shooter, Grenade (3) the 3x3 block. -/
def inFootprint (weapon shooterRow shooterCol targetRow targetCol r c : Int) : Prop :=
  if weapon = 0 then |r - targetRow| ≤ 2 ∧ |c - targetCol| ≤ 2
  else if weapon = 1 then r = targetRow
  else if weapon = 2 then
    (r = targetRow ∧ c = targetCol) ∧
      |targetRow - shooterRow| ≤ 1 ∧ |targetCol - shooterCol| ≤ 1
  else if weapon = 3 then |r - targetRow| ≤ 1 ∧ |c - targetCol| ≤ 1
  else False

instance (w sr sc tr tc r c : Int) : Decidable (inFootprint w sr sc tr tc r c) := by
  unfold inFootprint
  infer_instance

/-- The inclusive base damage range of a weapon, written from the spec table. -/
def damageRange (weapon : Int) : Int × Int :=
  if weapon = 0 then (30, 50)
  else if weapon = 1 then (10, 20)
  else if weapon = 2 then (50, 60)
  else (10, 40)

/-! ## `Arena::moveRobot` -/

/-- The body of the `for` loop of `moveRobot` after the `if` chain on the next cell: the old
cell is vacated and the new one occupied. -/
def Arena.stepInto (A : Arena) (robot : RobotPtr) (row col newRow newCol : Int) : Arena :=
  let A1 := A.setCell row col
    { A.grid row col with type := CellType.EMPTY, robot := none }
  A1.setCell newRow newCol
    { A1.grid newRow newCol with type := CellType.ROBOT, robot := some robot }

/-- The `for` loop of `moveRobot` with `n` iterations left.  The result is the state and
`some (row, col)` when the loop is left by `break` or by exhausting the distance, `none`
when the function is left by the `return` of the pit branch. -/
def Arena.moveRobotLoop (robot : RobotPtr) (direction : Int) :
    Nat → Arena → Int → Int → Arena × Option (Int × Int)
  | 0, A, row, col => (A, some (row, col))
  | n + 1, A, row, col =>
    let next := A.getNextCell row col direction
    if A.outOfBounds next.1 next.2 then (A, some (row, col))
    else
      match (A.grid next.1 next.2).type with
      | CellType.OBSTACLE_PIT => (A, none)
      | CellType.OBSTACLE_FLAMETHROWER =>
        let A1 := (A.rand).2.updRobot robot
          (RobotBase.take_damage ((30 : Int) + ((A.rand).1 % 21 : Nat)))
        Arena.moveRobotLoop robot direction n
          (A1.stepInto robot row col next.1 next.2) next.1 next.2
      | CellType.OBSTACLE_MOUND => (A, some (row, col))
      | CellType.DEAD => (A, some (row, col))
      | CellType.ROBOT => (A, some (row, col))
      | CellType.EMPTY =>
        Arena.moveRobotLoop robot direction n
          (A.stepInto robot row col next.1 next.2) next.1 next.2

/-- The function `Arena::moveRobot`. -/
def Arena.moveRobot (A : Arena) (robot : RobotPtr) (direction distance : Int) : Arena :=
  match Arena.moveRobotLoop robot direction distance.toNat A
      (A.heap robot).get_current_location.1 (A.heap robot).get_current_location.2 with
  | (A1, some (row, col)) => A1.updRobot robot (RobotBase.move_to row col)
  | (A1, none) => A1

/-- What a detection at index `i` of a cast of `len` detections from `(row, col)` must be. -/
def detectionOk (A : Arena) (row col d : Int) (len i : Nat) (o : RadarObj) : Prop :=
  (o.m_row, o.m_col) = torusCell A.rows A.cols row col d (i + 1) ∧
    o.m_type = kindGlyph (A.grid o.m_row o.m_col).type ∧
    (i + 1 < len → (o.m_type = '.' ∨ o.m_type = 'F' ∨ o.m_type = 'P')) ∧
    (i + 1 = len → (o.m_type = 'R' ∨ o.m_type = 'X' ∨ o.m_type = 'M'))

/-! ## A concrete arena -/

/-- The grid of `demoArena`: robot 0 at `(0, 1)`, a pit at `(0, 2)`, robot 1 at `(0, 4)`, a
flamethrower at `(1, 1)` and a mound at `(3, 2)`; every other cell is empty. -/
def demoGrid (r c : Int) : Cell :=
  if r = 0 ∧ c = 1 then { type := CellType.ROBOT, robot := some 0 }
  else if r = 0 ∧ c = 4 then { type := CellType.ROBOT, robot := some 1 }
  else if r = 0 ∧ c = 2 then { type := CellType.OBSTACLE_PIT }
  else if r = 1 ∧ c = 1 then { type := CellType.OBSTACLE_FLAMETHROWER }
  else if r = 3 ∧ c = 2 then { type := CellType.OBSTACLE_MOUND }
  else {}

/-- The robot objects of `demoArena`: robot 0 carries a Railgun, robot 1 a Hammer and has
10 health left. -/
def demoHeap (p : RobotPtr) : RobotBase :=
  if p = 0 then
    { m_health := 100, m_armor := 3, m_weapon := 1, m_move := 2,
      m_location_row := 0, m_location_col := 1 }
  else
    { m_health := 10, m_armor := 0, m_weapon := 2, m_move := 2,
      m_location_row := 0, m_location_col := 4 }

/-- A 5 x 8 arena (the size `main` constructs) with two robots. -/
def demoArena : Arena :=
  { rows := 5, cols := 8, grid := demoGrid, robots := [0, 1], heap := demoHeap,
    randStream := fun n => 7 * n + 3 }

/-- The state after robot 1 of `demoArena` was asked to move west by 2: it entered `(0, 3)`
and the second step met the pit at `(0, 2)`. -/
def staleArena : Arena := demoArena.moveRobot 1 7 2

/-! ## The trail of a move -/

/-- The cells the robot enters during the `for` loop of `moveRobot`, in order: the same case
analysis as `moveRobotLoop`, recording the new cell of every step that is taken. -/
def Arena.moveRobotTrail (robot : RobotPtr) (direction : Int) :
    Nat → Arena → Int → Int → List (Int × Int)
  | 0, _, _, _ => []
  | n + 1, A, row, col =>
    let next := A.getNextCell row col direction
    if A.outOfBounds next.1 next.2 then []
    else
      match (A.grid next.1 next.2).type with
      | CellType.OBSTACLE_PIT => []
      | CellType.OBSTACLE_FLAMETHROWER =>
        let A1 := (A.rand).2.updRobot robot
          (RobotBase.take_damage ((30 : Int) + ((A.rand).1 % 21 : Nat)))
        (next.1, next.2) :: Arena.moveRobotTrail robot direction n
          (A1.stepInto robot row col next.1 next.2) next.1 next.2
      | CellType.OBSTACLE_MOUND => []
      | CellType.DEAD => []
      | CellType.ROBOT => []
      | CellType.EMPTY =>
        (next.1, next.2) :: Arena.moveRobotTrail robot direction n
          (A.stepInto robot row col next.1 next.2) next.1 next.2

/-- The cells the robot stands on during `moveRobot`: its recorded position at the call,
then every cell it enters. -/
def Arena.movePath (A : Arena) (robot : RobotPtr) (direction distance : Int) :
    List (Int × Int) :=
  ((A.heap robot).get_current_location.1, (A.heap robot).get_current_location.2) ::
    Arena.moveRobotTrail robot direction distance.toNat A
      (A.heap robot).get_current_location.1 (A.heap robot).get_current_location.2

/-! ## `Arena::simulateTurn` -/

/-- The answers of a robot's strategy during one turn, which the arena obtains through the
capability contract: the radar direction, then, given the radar results, the shot requested
(if any) and the move direction and distance. -/
structure TurnPlan where
  radar_direction : Int
  shot_location : List RadarObj → Option (Int × Int)
  move_direction : List RadarObj → Int × Int

/-- The function `Arena::simulateTurn`; `none` when the radar cast does not return within
`fuel` iterations. -/
def Arena.simulateTurn (A : Arena) (robot : RobotPtr) (plan : TurnPlan) (fuel : Nat) :
    Option Arena :=
  match A.simulateRadar robot plan.radar_direction fuel with
  | none => none
  | some radarResults =>
    match plan.shot_location radarResults with
    | some target => some (A.resolveShot robot target.1 target.2)
    | none =>
      if (A.grid (A.heap robot).get_current_location.1
          (A.heap robot).get_current_location.2).type = CellType.OBSTACLE_PIT then some A
      else if (plan.move_direction radarResults).2 > 0 then
        some (A.moveRobot robot (plan.move_direction radarResults).1
          (plan.move_direction radarResults).2)
      else some A

/-! ## `Arena::get_robot_index` and the glyph palette -/

/-- The loop of `get_robot_index` from index `i` on. -/
def robotIndexFrom (heap : RobotPtr → RobotBase) (row col : Int) : List RobotPtr → Nat → Int
  | [], _ => -1
  | p :: rest, i =>
    if (heap p).get_current_location.1 = row ∧ (heap p).get_current_location.2 = col then i
    else robotIndexFrom heap row col rest (i + 1)

/-- The function `Arena::get_robot_index`. -/
def Arena.get_robot_index (A : Arena) (row col : Int) : Int :=
  robotIndexFrom A.heap row col A.robots 0

/-- The member `specialCharacters` of `Arena.h`. -/
def specialCharacters : List Char := ['^', '*', '#', '>', '&', '@', '%', '!', '+']

/-- The read `specialCharacters[botIndex]`.  Outside `0..8` the read is undefined in C++; the
model yields the NUL character there. -/
def paletteAt (botIndex : Int) : Char :=
  if 0 ≤ botIndex then specialCharacters.getD botIndex.toNat (Char.ofNat 0) else Char.ofNat 0

/-! ## `Arena::startBattle` -/

/-- The loop that removes destroyed robots: `kept` are the robots before the iterator,
the list argument the robots from the iterator on; `robots` is the whole vector. -/
def Arena.sweepLoop : List RobotPtr → List RobotPtr → Arena → Arena
  | [], _, A => A
  | p :: rest, kept, A =>
    if (A.heap p).get_health ≤ 0 then
      let r := (A.heap p).get_current_location.1
      let c := (A.heap p).get_current_location.2
      let botIndex := A.get_robot_index r c
      let A1 := A.setCell r c
        { A.grid r c with
          type := CellType.DEAD
          specialChar := String.singleton (paletteAt botIndex)
          robot := none }
      Arena.sweepLoop rest kept { A1 with robots := kept ++ rest }
    else Arena.sweepLoop rest (kept ++ [p]) A

/-- The block "Remove destroyed robots" of `startBattle`. -/
def Arena.sweep (A : Arena) : Arena := Arena.sweepLoop A.robots [] A

/-- The loop over the roster that runs the turns of one round.  Each robot comes with its
entry of `prevLocations`; the Boolean is `progress`.  `none` when a turn does not return. -/
def Arena.turnsLoop (plan : RobotPtr → TurnPlan) (fuel : Nat) :
    List (RobotPtr × (Int × Int)) → Arena → Bool → Option (Arena × Bool)
  | [], A, progress => some (A, progress)
  | (p, prev) :: rest, A, progress =>
    if (A.heap p).get_health ≤ 0 then Arena.turnsLoop plan fuel rest A progress
    else
      match A.simulateTurn p (plan p) fuel with
      | none => none
      | some A1 =>
        Arena.turnsLoop plan fuel rest A1
          (progress ||
            decide ((A1.heap p).get_health < (A.heap p).get_health ∨
              (A1.heap p).get_current_location.1 ≠ prev.1 ∨
              (A1.heap p).get_current_location.2 ≠ prev.2))

/-- The Manhattan distance `std::abs(r1 - r2) + std::abs(c1 - c2)`. -/
def manhattan (a b : Int × Int) : Int := |a.1 - b.1| + |a.2 - b.2|

/-- The two nested loops "Calculate proximity changes": whether some pair `i < j` is closer
now than in `prevLocations`.  Each entry is the previous and the new location of a robot. -/
def closerPair : List ((Int × Int) × (Int × Int)) → Bool
  | [] => false
  | x :: rest =>
    rest.any (fun y => decide (manhattan x.2 y.2 < manhattan x.1 y.1)) || closerPair rest

/-- The local variables of `startBattle` together with the arena. -/
structure BattleState where
  arena : Arena
  round : Int
  stagnationCounter : Int

/-- The body of the `while` loop of `startBattle` up to `++round`: the new state and the
value of `progress`.  The strategies answer with `plans round`. -/
def battleRound (plans : Nat → RobotPtr → TurnPlan) (fuel : Nat) (s : BattleState) :
    Option (BattleState × Bool) :=
  match Arena.turnsLoop (plans s.round.toNat) fuel
      (s.arena.robots.zip (s.arena.robots.map fun p => (s.arena.heap p).get_current_location))
      s.arena false with
  | none => none
  | some (A1, progress1) =>
    let progress := progress1 ||
      closerPair ((s.arena.robots.map fun p => (s.arena.heap p).get_current_location).zip
        (A1.robots.map fun p => (A1.heap p).get_current_location))
    some ({ arena := A1.sweep, round := s.round + 1,
            stagnationCounter := if progress then 0 else s.stagnationCounter + 1 }, progress)

/-- What `startBattle` prints under "Game Over". -/
inductive Announcement where
  | winner (p : RobotPtr)
  | draw
deriving DecidableEq, Repr

/-- How a run of `startBattle` ends: it returns in a state with an announcement (or none),
a radar cast never returns, or the iterations allowed to the model are used up. -/
inductive BattleRun where
  | finished (s : BattleState) (announced : Option Announcement)
  | stuck
  | unfinished

/-- The test of the `while` loop of `startBattle`. -/
def BattleState.guard (s : BattleState) : Prop :=
  s.arena.robots.length > 1 ∧ s.stagnationCounter < 100 ∧ s.round < 10000

instance (s : BattleState) : Decidable s.guard := by
  unfold BattleState.guard
  infer_instance

/-- The code after the `while` loop of `startBattle`. -/
def BattleState.afterLoop (s : BattleState) : BattleRun :=
  if s.arena.robots.length > 1 then BattleRun.finished s (some Announcement.draw)
  else BattleRun.finished s none

/-- The `while` loop of `startBattle` and the code after it, for at most `n` iterations. -/
def battleLoop (plans : Nat → RobotPtr → TurnPlan) (fuel : Nat) :
    Nat → BattleState → BattleRun
  | 0, s => if s.guard then BattleRun.unfinished else s.afterLoop
  | n + 1, s =>
    if s.guard then
      match battleRound plans fuel s with
      | none => BattleRun.stuck
      | some (s1, _) =>
        match s1.arena.robots with
        | [p] => BattleRun.finished s1 (some (Announcement.winner p))
        | _ => battleLoop plans fuel n s1
    else s.afterLoop

/-- The function `Arena::startBattle`; 10000 iterations always suffice. -/
def Arena.startBattle (A : Arena) (plans : Nat → RobotPtr → TurnPlan) (fuel : Nat) :
    BattleRun :=
  battleLoop plans fuel 10000 { arena := A, round := 0, stagnationCounter := 0 }

/-- The record `RadarObj radarObj{objTypeChar, newRow, newCol}` that `simulateRadar` appends
for the cell `(r, c)`. -/
def Arena.detectionAt (A : Arena) (r c : Int) : RadarObj :=
  ⟨(radarSwitch (A.grid r c).type).1, r, c⟩

/-- The announcement of a run that returned. -/
def BattleRun.announced : BattleRun → Option (Option Announcement)
  | BattleRun.finished _ a => some a
  | _ => none

/-- The state in which a run returned. -/
def BattleRun.final : BattleRun → Option BattleState
  | BattleRun.finished s _ => some s
  | _ => none

/-- The cells of the grid, row by row. -/
def Arena.cells (A : Arena) : List (Int × Int) :=
  (intRange 0 (A.rows - 1)) ×ˢ (intRange 0 (A.cols - 1))

/-- Grid/roster consistency, written from the spec: every robot of the roster stands on an
Occupied cell that references it, and every Occupied cell references a robot of the roster
that is recorded at that cell. -/
def Arena.consistent (A : Arena) : Prop :=
  (∀ p ∈ A.robots,
    (A.grid (A.heap p).get_current_location.1 (A.heap p).get_current_location.2).type
        = CellType.ROBOT ∧
      (A.grid (A.heap p).get_current_location.1 (A.heap p).get_current_location.2).robot
        = some p) ∧
  (∀ rc ∈ A.cells, (A.grid rc.1 rc.2).type = CellType.ROBOT →
    ∃ p ∈ A.robots, (A.grid rc.1 rc.2).robot = some p ∧
      (A.heap p).get_current_location = rc)

instance (A : Arena) : Decidable A.consistent := by
  unfold Arena.consistent
  infer_instance

/-! ## Concrete matches -/

/-- A strategy answer: look east, request no shot, do not move. -/
def idlePlan : TurnPlan :=
  { radar_direction := 3, shot_location := fun _ => none, move_direction := fun _ => (0, 0) }

/-- A strategy answer: look east and request a shot at `target`. -/
def shootPlan (target : Int × Int) : TurnPlan :=
  { radar_direction := 3, shot_location := fun _ => some target,
    move_direction := fun _ => (0, 0) }

/-- A strategy answer: look west, request no shot, move `distance` cells in `direction`. -/
def walkPlan (direction distance : Int) : TurnPlan :=
  { radar_direction := 7, shot_location := fun _ => none,
    move_direction := fun _ => (direction, distance) }

/-- Two healthy robots that do not share a row or a column: robot 0 (Railgun) at `(0, 1)`,
robot 1 at `(1, 4)`, every other cell of the 5 x 8 grid empty. -/
def standoffArena : Arena :=
  { rows := 5, cols := 8,
    grid := fun r c =>
      if r = 0 ∧ c = 1 then { type := CellType.ROBOT, robot := some 0 }
      else if r = 1 ∧ c = 4 then { type := CellType.ROBOT, robot := some 1 }
      else {},
    robots := [0, 1],
    heap := fun p =>
      if p = 0 then
        { m_health := 100, m_armor := 0, m_weapon := 1, m_move := 2,
          m_location_row := 0, m_location_col := 1 }
      else
        { m_health := 100, m_armor := 0, m_weapon := 1, m_move := 2,
          m_location_row := 1, m_location_col := 4 },
    randStream := fun n => 7 * n + 3 }

/-- In every round robot 0 fires its Railgun at the cell of robot 1 and robot 1 does
nothing. -/
def standoffPlans : Nat → RobotPtr → TurnPlan :=
  fun _ p => if p = 0 then shootPlan (1, 4) else idlePlan

/-- Two robots with 5 health left in the same row: robot 0 (Railgun) at `(0, 1)`, robot 1
at `(0, 4)`, every other cell of the 5 x 8 grid empty. -/
def lastStandArena : Arena :=
  { rows := 5, cols := 8,
    grid := fun r c =>
      if r = 0 ∧ c = 1 then { type := CellType.ROBOT, robot := some 0 }
      else if r = 0 ∧ c = 4 then { type := CellType.ROBOT, robot := some 1 }
      else {},
    robots := [0, 1],
    heap := fun p =>
      if p = 0 then
        { m_health := 5, m_armor := 0, m_weapon := 1, m_move := 2,
          m_location_row := 0, m_location_col := 1 }
      else
        { m_health := 5, m_armor := 0, m_weapon := 1, m_move := 2,
          m_location_row := 0, m_location_col := 4 },
    randStream := fun n => 7 * n + 3 }

/-- In every round robot 0 fires its Railgun along its own row, at the cell of robot 1. -/
def lastStandPlans : Nat → RobotPtr → TurnPlan :=
  fun _ p => if p = 0 then shootPlan (0, 4) else idlePlan

/-- In every round robot 0 of `demoArena` does nothing and robot 1 walks west by 2. -/
def pitWalkPlans : Nat → RobotPtr → TurnPlan :=
  fun _ p => if p = 0 then idlePlan else walkPlan 7 2

/-- The state in which a run returned, or `s` when it did not return. -/
def BattleRun.finalOr (s : BattleState) : BattleRun → BattleState
  | BattleRun.finished s1 _ => s1
  | _ => s

/-- Three robots in a 5 x 8 grid without obstacles: robot 0 carries a Hammer and stands at
`(1, 4)`, robot 1 has 10 health left and stands at `(0, 4)`, next to robot 0, and robot 2
stands at `(0, 5)`. -/
def ambushArena : Arena :=
  { rows := 5, cols := 8,
    grid := fun r c =>
      if r = 1 ∧ c = 4 then { type := CellType.ROBOT, robot := some 0 }
      else if r = 0 ∧ c = 4 then { type := CellType.ROBOT, robot := some 1 }
      else if r = 0 ∧ c = 5 then { type := CellType.ROBOT, robot := some 2 }
      else {},
    robots := [0, 1, 2],
    heap := fun p =>
      if p = 0 then
        { m_health := 100, m_armor := 0, m_weapon := 2, m_move := 2,
          m_location_row := 1, m_location_col := 4 }
      else if p = 1 then
        { m_health := 10, m_armor := 0, m_weapon := 2, m_move := 2,
          m_location_row := 0, m_location_col := 4 }
      else
        { m_health := 100, m_armor := 0, m_weapon := 2, m_move := 2,
          m_location_row := 0, m_location_col := 5 },
    randStream := fun n => 7 * n + 3 }

/-- In every round robot 0 strikes the cell `(0, 4)` with its Hammer, robot 2 walks west by 1
and robot 1 does nothing. -/
def ambushPlans : Nat → RobotPtr → TurnPlan :=
  fun _ p => if p = 0 then shootPlan (0, 4) else if p = 2 then walkPlan 7 1 else idlePlan

/-! ## `Robot_FireBoi` (`Robot_FireBoi.cpp`) -/

/-- The class `Robot_FireBoi`: the `RobotBase` it derives from and its private members
(`maxRange` is the constant 4). -/
structure Robot_FireBoi where
  base : RobotBase
  facing : Int
  targetFound : Bool
  targetRow : Int
  targetCol : Int
  knownObstacles : List RadarObj

/-- The constant member `maxRange`. -/
def Robot_FireBoi.maxRange : Int := 4

/-- The member initialisations of the constructor body of `Robot_FireBoi`. -/
def Robot_FireBoi.create (base : RobotBase) : Robot_FireBoi :=
  { base := base, facing := 0, targetFound := false, targetRow := -1, targetCol := -1,
    knownObstacles := [] }

/-- The helper `Robot_FireBoi::is_obstacle`. -/
def Robot_FireBoi.is_obstacle (s : Robot_FireBoi) (row col : Int) : Bool :=
  s.knownObstacles.any fun obj => decide (obj.m_row = row ∧ obj.m_col = col)

/-- The helper `Robot_FireBoi::add_obstacle`; `&&` binds tighter than `||` in its test. -/
def Robot_FireBoi.add_obstacle (s : Robot_FireBoi) (obj : RadarObj) : Robot_FireBoi :=
  if obj.m_type = 'M' ∨ obj.m_type = 'P' ∨
      (obj.m_type = 'F' ∧ s.is_obstacle obj.m_row obj.m_col = false) then
    { s with knownObstacles := s.knownObstacles ++ [obj] }
  else s

/-- The helper `Robot_FireBoi::calculate_distance`. -/
def Robot_FireBoi.calculate_distance (row1 col1 row2 col2 : Int) : Int :=
  |row1 - row2| + |col1 - col2|

/-- The `for` loop of `process_radar_results`; the last argument is `closest_distance`. -/
def Robot_FireBoi.processLoop : List RadarObj → Robot_FireBoi → Int → Robot_FireBoi
  | [], s, _ => s
  | obj :: rest, s, closest_distance =>
    if obj.m_type = 'R' ∧ (s.add_obstacle obj).targetRow = -1 ∧
        (s.add_obstacle obj).targetCol = -1 then
      if Robot_FireBoi.calculate_distance s.base.get_current_location.1
            s.base.get_current_location.2 obj.m_row obj.m_col ≤ Robot_FireBoi.maxRange ∧
          Robot_FireBoi.calculate_distance s.base.get_current_location.1
            s.base.get_current_location.2 obj.m_row obj.m_col < closest_distance then
        Robot_FireBoi.processLoop rest
          { s.add_obstacle obj with
            targetRow := obj.m_row, targetCol := obj.m_col, targetFound := true }
          (Robot_FireBoi.calculate_distance s.base.get_current_location.1
            s.base.get_current_location.2 obj.m_row obj.m_col)
      else Robot_FireBoi.processLoop rest (s.add_obstacle obj) closest_distance
    else Robot_FireBoi.processLoop rest (s.add_obstacle obj) closest_distance

/-- The method `Robot_FireBoi::process_radar_results`.  The statement
`targetRow, targetCol = -1;` is a comma expression: it evaluates `targetRow` and assigns
only `targetCol`.  `closest_distance` starts at `INT_MAX`. -/
def Robot_FireBoi.process_radar_results (s : Robot_FireBoi) (radar_results : List RadarObj) :
    Robot_FireBoi :=
  Robot_FireBoi.processLoop radar_results { s with targetFound := false, targetCol := -1 }
    2147483647

/-- The method `Robot_FireBoi::get_shot_location`: the shot requested, if any. -/
def Robot_FireBoi.get_shot_location (s : Robot_FireBoi) : Option (Int × Int) :=
  if s.targetFound then some (s.targetRow, s.targetCol) else none

/-- A freshly constructed `Robot_FireBoi` recorded at `(0, 1)`. -/
def demoFireBoi : Robot_FireBoi :=
  Robot_FireBoi.create
    { m_health := 100, m_armor := 5, m_weapon := 0, m_move := 2,
      m_location_row := 0, m_location_col := 1 }

/-- Radar results of a cast to the east from `(0, 1)`: two empty cells and a robot at
`(0, 4)`, at Manhattan distance 3. -/
def demoRadarFeed : List RadarObj := [⟨'.', 0, 2⟩, ⟨'.', 0, 3⟩, ⟨'R', 0, 4⟩]

/-! ## Setup: the constructor, `placeObstacles`, `placeRobot`, `loadRobots` -/

/-- The constructor `Arena::Arena(int rows, int cols)`: a grid of default cells and an empty
roster.  `heap` holds the robot objects the factories will hand out; `seed` is the stream
that `srand` selects. -/
def Arena.create (rows cols : Int) (heap : RobotPtr → RobotBase) (seed : Nat → Nat) : Arena :=
  { rows := rows, cols := cols, grid := fun _ _ => {}, robots := [], heap := heap,
    randStream := seed }

/-- The conversion `static_cast<CellType>(n)`. -/
def cellTypeOfCode : Nat → CellType
  | 0 => CellType.EMPTY
  | 1 => CellType.OBSTACLE_FLAMETHROWER
  | 2 => CellType.OBSTACLE_PIT
  | 3 => CellType.OBSTACLE_MOUND
  | 4 => CellType.ROBOT
  | _ => CellType.DEAD

/-- The `for` loop of `placeObstacles` with `n` iterations left. -/
def Arena.placeObstaclesLoop : Nat → Arena → Arena
  | 0, A => A
  | n + 1, A =>
    let r := Int.tmod ((A.rand).1 : Int) A.rows
    let c := Int.tmod (((A.rand).2.rand).1 : Int) A.cols
    let A2 := ((A.rand).2.rand).2
    if (A2.grid r c).type = CellType.EMPTY then
      Arena.placeObstaclesLoop n
        ((A2.rand).2.setCell r c
          { (A2.rand).2.grid r c with type := cellTypeOfCode ((A2.rand).1 % 3 + 1) })
    else Arena.placeObstaclesLoop n A2

/-- The function `Arena::placeObstacles`. -/
def Arena.placeObstacles (A : Arena) : Arena :=
  Arena.placeObstaclesLoop (Int.tdiv (A.rows * A.cols) 10).toNat A

/-- The function `Arena::placeRobot`: its `do ... while` loop for at most `fuel` draws of a
cell, then the three assignments; `none` when no empty cell is drawn within `fuel`. -/
def Arena.placeRobot (robot : RobotPtr) : Nat → Arena → Option Arena
  | 0, _ => none
  | fuel + 1, A =>
    let r := Int.tmod ((A.rand).1 : Int) A.rows
    let c := Int.tmod (((A.rand).2.rand).1 : Int) A.cols
    let A2 := ((A.rand).2.rand).2
    if (A2.grid r c).type ≠ CellType.EMPTY then Arena.placeRobot robot fuel A2
    else
      some ((A2.setCell r c
        { A2.grid r c with type := CellType.ROBOT, robot := some robot }).updRobot robot
          (RobotBase.move_to r c))

/-- The function `Arena::loadRobots`; the list holds, for every library, what `loadRobot`
returned: a robot or the null pointer. -/
def Arena.loadRobots (fuel : Nat) : List (Option RobotPtr) → Arena → Option Arena
  | [], A => some A
  | none :: rest, A => Arena.loadRobots fuel rest A
  | some robot :: rest, A =>
    match Arena.placeRobot robot fuel { A with robots := A.robots ++ [robot] } with
    | none => none
    | some A1 => Arena.loadRobots fuel rest A1

/-- The setup of `main` before `startBattle`: construct the arena (`main` passes 5 and 8),
place the obstacles, load the robots. -/
def Arena.setup (rows cols : Int) (heap : RobotPtr → RobotBase) (seed : Nat → Nat)
    (loaded : List (Option RobotPtr)) (fuel : Nat) : Option Arena :=
  Arena.loadRobots fuel loaded (Arena.create rows cols heap seed).placeObstacles

/-- The states the arena passes through after the setup: `startBattle` changes the state
only by turns of robots of the roster and by sweeps. -/
inductive Arena.Reachable (A0 : Arena) : Arena → Prop where
  | start : Arena.Reachable A0 A0
  | turn (A A1 : Arena) (p : RobotPtr) (plan : TurnPlan) (fuel : Nat) :
      Arena.Reachable A0 A → p ∈ A.robots → A.simulateTurn p plan fuel = some A1 →
      Arena.Reachable A0 A1
  | sweep (A : Arena) : Arena.Reachable A0 A → Arena.Reachable A0 A.sweep

/-- The function `simulateTurn` with the branch "trapped in a pit" removed. -/
def Arena.simulateTurnNoPit (A : Arena) (robot : RobotPtr) (plan : TurnPlan) (fuel : Nat) :
    Option Arena :=
  match A.simulateRadar robot plan.radar_direction fuel with
  | none => none
  | some radarResults =>
    match plan.shot_location radarResults with
    | some target => some (A.resolveShot robot target.1 target.2)
    | none =>
      if (plan.move_direction radarResults).2 > 0 then
        some (A.moveRobot robot (plan.move_direction radarResults).1
          (plan.move_direction radarResults).2)
      else some A

/-- No robot of the roster is recorded at a cell of kind Pit. -/
def Arena.noRobotOnPit (A : Arena) : Prop :=
  ∀ p ∈ A.robots,
    (A.grid (A.heap p).get_current_location.1 (A.heap p).get_current_location.2).type
      ≠ CellType.OBSTACLE_PIT

instance (A : Arena) : Decidable A.noRobotOnPit := by
  unfold Arena.noRobotOnPit
  infer_instance

/-- The result of the setup, or `A` when the setup does not return. -/
def Arena.setupOr (A : Arena) : Option Arena → Arena
  | some A0 => A0
  | none => A

/-! ## Theorems -/

theorem tmod_wrap_eq_emod (x n : Int) (hn : 0 < n) (hx : -1 ≤ x) :
    Int.tmod (x + n) n = x % n := by
  rw [Int.tmod_eq_emod (by omega) (by omega), Int.add_emod_self]

theorem emod_wrap_self (x n : Int) (h0 : 0 ≤ x) (hn : x < n) : x % n = x :=
  Int.emod_eq_of_lt h0 hn

theorem directions_eq_compassVector (d : Int) (hd : 1 ≤ d ∧ d ≤ 8) :
    directions.getD (d - 1).toNat (0, 0) = compassVector d := by
  obtain ⟨hd1, hd8⟩ := hd
  interval_cases d <;> rfl

theorem compassVector_bounds (d : Int) :
    (-1 ≤ (compassVector d).1 ∧ (compassVector d).1 ≤ 1) ∧
      (-1 ≤ (compassVector d).2 ∧ (compassVector d).2 ≤ 1) := by
  unfold compassVector
  split_ifs <;> simp

theorem getNextCell_eq_emod (A : Arena) (row col d : Int)
    (hr : 0 ≤ row ∧ row < A.rows) (hc : 0 ≤ col ∧ col < A.cols) (hd : 1 ≤ d ∧ d ≤ 8) :
    A.getNextCell row col d
      = ((row + (compassVector d).1) % A.rows, (col + (compassVector d).2) % A.cols) := by
  have hrows : 0 < A.rows := by omega
  have hcols : 0 < A.cols := by omega
  obtain ⟨⟨h1, h2⟩, h3, h4⟩ := compassVector_bounds d
  have hdir : ¬ (d < 1 ∨ d > 8) := by omega
  simp only [Arena.getNextCell, if_neg hdir, directions_eq_compassVector d hd]
  generalize (compassVector d).1 = dr at h1 h2
  generalize (compassVector d).2 = dc at h3 h4
  split_ifs with hwrap
  · rw [tmod_wrap_eq_emod _ _ hrows (by omega), tmod_wrap_eq_emod _ _ hcols (by omega)]
  · rw [emod_wrap_self _ _ (by omega) (by omega), emod_wrap_self _ _ (by omega) (by omega)]

/-! ### Radar -/

theorem torusCell_one (A : Arena) (row col d : Int)
    (hr : 0 ≤ row ∧ row < A.rows) (hc : 0 ≤ col ∧ col < A.cols) (hd : 1 ≤ d ∧ d ≤ 8) :
    A.getNextCell row col d = torusCell A.rows A.cols row col d 1 := by
  rw [getNextCell_eq_emod A row col d hr hc hd]
  simp [torusCell]

theorem torusCell_succ (rows cols row col d : Int) (k : Nat) :
    torusCell rows cols (torusCell rows cols row col d 1).1 (torusCell rows cols row col d 1).2
      d k = torusCell rows cols row col d (k + 1) := by
  simp only [torusCell, Nat.cast_one, one_mul, Int.emod_add_emod, Nat.cast_add, Prod.mk.injEq]
  constructor <;> congr 1 <;> ring

theorem torusCell_inBounds (A : Arena) (row col d : Int) (k : Nat)
    (hrows : 0 < A.rows) (hcols : 0 < A.cols) :
    ¬ A.outOfBounds (torusCell A.rows A.cols row col d k).1
      (torusCell A.rows A.cols row col d k).2 := by
  simp only [Arena.outOfBounds, torusCell]
  have h1 := Int.emod_nonneg (row + k * (compassVector d).1) (ne_of_gt hrows)
  have h2 := Int.emod_lt_of_pos (row + k * (compassVector d).1) hrows
  have h3 := Int.emod_nonneg (col + k * (compassVector d).2) (ne_of_gt hcols)
  have h4 := Int.emod_lt_of_pos (col + k * (compassVector d).2) hcols
  omega

theorem radarSwitch_glyph (t : CellType) : (radarSwitch t).1 = kindGlyph t := by
  cases t <;> rfl

theorem radarSwitch_passes (t : CellType) (h : (radarSwitch t).2 = false) :
    kindGlyph t = '.' ∨ kindGlyph t = 'F' ∨ kindGlyph t = 'P' := by
  cases t <;> simp_all [radarSwitch, kindGlyph]

theorem radarSwitch_blocks (t : CellType) (h : (radarSwitch t).2 = true) :
    kindGlyph t = 'R' ∨ kindGlyph t = 'X' ∨ kindGlyph t = 'M' := by
  cases t <;> simp_all [radarSwitch, kindGlyph]

theorem simulateRadarLoop_detections (A : Arena) (d : Int) (hd : 1 ≤ d ∧ d ≤ 8) (fuel : Nat) :
    ∀ (row col : Int) (acc res : List RadarObj),
      (0 ≤ row ∧ row < A.rows) → (0 ≤ col ∧ col < A.cols) →
      A.simulateRadarLoop d fuel row col acc = some res →
      ∃ tail, res = acc ++ tail ∧ tail ≠ [] ∧
        ∀ (i : Nat) (o : RadarObj), tail[i]? = some o →
          detectionOk A row col d tail.length i o := by
  induction fuel with
  | zero => intro row col acc res _ _ h; simp [Arena.simulateRadarLoop] at h
  | succ fuel ih =>
    intro row col acc res hr hc h
    have hrows : 0 < A.rows := by omega
    have hcols : 0 < A.cols := by omega
    have hnext := torusCell_one A row col d hr hc hd
    have hin := torusCell_inBounds A row col d 1 hrows hcols
    simp only [Arena.simulateRadarLoop, hnext, if_neg hin] at h
    generalize hobj : (⟨(radarSwitch (A.grid (torusCell A.rows A.cols row col d 1).1
          (torusCell A.rows A.cols row col d 1).2).type).1,
          (torusCell A.rows A.cols row col d 1).1,
          (torusCell A.rows A.cols row col d 1).2⟩ : RadarObj) = obj at h
    have hobj1 : (obj.m_row, obj.m_col) = torusCell A.rows A.cols row col d (0 + 1) := by
      subst hobj; rfl
    have hobj2 : obj.m_type = kindGlyph (A.grid obj.m_row obj.m_col).type := by
      subst hobj; exact radarSwitch_glyph _
    have hobj3 : (radarSwitch (A.grid obj.m_row obj.m_col).type).2
        = (radarSwitch (A.grid (torusCell A.rows A.cols row col d 1).1
          (torusCell A.rows A.cols row col d 1).2).type).2 := by
      subst hobj; rfl
    rw [← hobj3] at h
    split_ifs at h with hb
    · -- the cell blocks the ray
      refine ⟨[obj], ?_, by simp, ?_⟩
      · simpa using h.symm
      · intro i o hio
        rcases i with _ | i
        · simp at hio
          subst hio
          refine ⟨hobj1, hobj2, by simp, fun _ => ?_⟩
          rw [hobj2]
          exact radarSwitch_blocks _ hb
        · simp at hio
    · -- the ray continues
      have hb' : (radarSwitch (A.grid obj.m_row obj.m_col).type).2 = false := by simpa using hb
      have hin' := hin
      simp only [Arena.outOfBounds, not_or, not_lt, ge_iff_le, not_le] at hin'
      obtain ⟨tail, hres, hne, htail⟩ :=
        ih _ _ _ res ⟨hin'.1, hin'.2.1⟩ ⟨hin'.2.2.1, hin'.2.2.2⟩ h
      refine ⟨obj :: tail, by simpa using hres, by simp, ?_⟩
      intro i o hio
      rcases i with _ | i
      · simp at hio
        subst hio
        refine ⟨hobj1, hobj2, fun _ => ?_, fun hlen => ?_⟩
        · rw [hobj2]
          exact radarSwitch_passes _ hb'
        · simp at hlen
          exact absurd hlen hne
      · simp only [List.getElem?_cons_succ] at hio
        obtain ⟨h1, h2, h3, h4⟩ := htail i o hio
        refine ⟨?_, h2, fun hlt => h3 (by simpa using hlt), fun hlen => h4 (by simpa using hlen)⟩
        rw [h1, torusCell_succ]

/-- C1: for an in-bounds caster and a direction 1..8, whenever `simulateRadar` returns, the
list is non-empty, detection `i` sits on cell `i + 1` of the toroidal path from the caster
and carries the glyph of the kind of that cell, every detection but the last has a
non-blocking glyph and the last one a blocking glyph. -/
theorem simulateRadar_detections (A : Arena) (robot : RobotPtr) (d : Int) (fuel : Nat)
    (res : List RadarObj)
    (hr : 0 ≤ (A.heap robot).m_location_row ∧ (A.heap robot).m_location_row < A.rows)
    (hc : 0 ≤ (A.heap robot).m_location_col ∧ (A.heap robot).m_location_col < A.cols)
    (hd : 1 ≤ d ∧ d ≤ 8)
    (h : A.simulateRadar robot d fuel = some res) :
    res ≠ [] ∧
    ∀ (i : Nat) (o : RadarObj), res[i]? = some o →
      (o.m_row, o.m_col) = torusCell A.rows A.cols (A.heap robot).m_location_row
        (A.heap robot).m_location_col d (i + 1) ∧
      o.m_type = kindGlyph (A.grid o.m_row o.m_col).type ∧
      (i + 1 < res.length → (o.m_type = '.' ∨ o.m_type = 'F' ∨ o.m_type = 'P')) ∧
      (i + 1 = res.length → (o.m_type = 'R' ∨ o.m_type = 'X' ∨ o.m_type = 'M')) := by
  obtain ⟨tail, hres, hne, htail⟩ :=
    simulateRadarLoop_detections A d hd fuel _ _ [] res hr hc h
  simp only [List.nil_append] at hres
  subst hres
  exact ⟨hne, fun i o hio => htail i o hio⟩

/-- C1, witness: robot 0 of `demoArena` looks east and sees the pit, an empty cell and
robot 1. -/
theorem simulateRadar_detections_witness :
    demoArena.simulateRadar 0 3 10 = some [⟨'P', 0, 2⟩, ⟨'.', 0, 3⟩, ⟨'R', 0, 4⟩] ∧
      ∀ (i : Nat) (o : RadarObj),
        [(⟨'P', 0, 2⟩ : RadarObj), ⟨'.', 0, 3⟩, ⟨'R', 0, 4⟩][i]? = some o →
          (i + 1 = 3 → (o.m_type = 'R' ∨ o.m_type = 'X' ∨ o.m_type = 'M')) :=
  ⟨by decide, fun i o hio =>
    ((simulateRadar_detections demoArena 0 3 10 _ (by decide) (by decide) (by decide)
      (by decide)).2 i o hio).2.2.2⟩

/-! ### C3: `getNextCell` wraps toroidally -/

/-- C3: for an in-bounds cell and a direction `d` in 1..8 (1 = north, then clockwise),
`getNextCell` returns `((row + dr) mod rows, (col + dc) mod cols)` for the compass vector
`(dr, dc)` of `d`, and the out-of-bounds test that follows the call in `simulateRadar` and
`moveRobot` is false on the result. -/
theorem getNextCell_toroidal (A : Arena) (row col d : Int)
    (hr : 0 ≤ row ∧ row < A.rows) (hc : 0 ≤ col ∧ col < A.cols) (hd : 1 ≤ d ∧ d ≤ 8) :
    A.getNextCell row col d
        = ((row + (compassVector d).1) % A.rows, (col + (compassVector d).2) % A.cols) ∧
      ¬ A.outOfBounds (A.getNextCell row col d).1 (A.getNextCell row col d).2 := by
  refine ⟨getNextCell_eq_emod A row col d hr hc hd, ?_⟩
  rw [torusCell_one A row col d hr hc hd]
  exact torusCell_inBounds A row col d 1 (by omega) (by omega)

/-- C3, witness: north-west of the corner `(0, 0)` of the 5 x 8 arena is the opposite
corner `(4, 7)`. -/
theorem getNextCell_toroidal_witness :
    demoArena.getNextCell 0 0 8 = ((0 + (compassVector 8).1) % 5, (0 + (compassVector 8).2) % 8) ∧
      ¬ demoArena.outOfBounds (demoArena.getNextCell 0 0 8).1 (demoArena.getNextCell 0 0 8).2 :=
  getNextCell_toroidal demoArena 0 0 8 (by decide) (by decide) (by decide)

/-! ### C2: a cast with no blocking cell on its path -/

theorem simulateRadarLoop_never_returns (A : Arena) (d : Int) (hd : 1 ≤ d ∧ d ≤ 8)
    (fuel : Nat) :
    ∀ (row col : Int) (acc : List RadarObj),
      (0 ≤ row ∧ row < A.rows) → (0 ≤ col ∧ col < A.cols) →
      (∀ k : Nat, (radarSwitch (A.grid (torusCell A.rows A.cols row col d (k + 1)).1
        (torusCell A.rows A.cols row col d (k + 1)).2).type).2 = false) →
      A.simulateRadarLoop d fuel row col acc = none := by
  induction fuel with
  | zero => intro row col acc _ _ _; rfl
  | succ fuel ih =>
    intro row col acc hr hc hfree
    have hrows : 0 < A.rows := by omega
    have hcols : 0 < A.cols := by omega
    have hnext := torusCell_one A row col d hr hc hd
    have hin := torusCell_inBounds A row col d 1 hrows hcols
    have h0 := hfree 0
    simp only [zero_add] at h0
    simp only [Arena.simulateRadarLoop, hnext, if_neg hin, h0]
    simp only [Arena.outOfBounds, not_or, not_lt, ge_iff_le, not_le] at hin
    refine ih _ _ _ ⟨hin.1, hin.2.1⟩ ⟨hin.2.2.1, hin.2.2.2⟩ (fun k => ?_)
    rw [torusCell_succ]
    exact hfree (k + 1)

theorem staleArena_column_empty (r : Int) (h0 : 0 ≤ r) (h5 : r < 5) :
    (staleArena.grid r 4).type = CellType.EMPTY := by
  interval_cases r <;> decide

/-- C2, the code at the failing input: robot 1 of `demoArena` moves west by 2 and is stopped
by the pit after one step, so its recorded position stays `(0, 4)` while that cell is now
Empty; the whole column 4 is Empty, and the cast to the south never leaves the loop of
`simulateRadar`, whatever the number of iterations allowed. -/
theorem simulateRadar_never_returns :
    (staleArena.heap 1).get_current_location = (0, 4) ∧
      (staleArena.grid 0 4).type = CellType.EMPTY ∧
      ∀ fuel : Nat, staleArena.simulateRadar 1 5 fuel = none := by
  refine ⟨by decide, by decide, fun fuel => ?_⟩
  refine simulateRadarLoop_never_returns staleArena 5 (by decide) fuel _ _ []
    (by decide) (by decide) (fun k => ?_)
  have hrow : (staleArena.heap 1).get_current_location.1 = 0 := by decide
  have hcol : (staleArena.heap 1).get_current_location.2 = 4 := by decide
  have hrows : staleArena.rows = 5 := by decide
  have hcols : staleArena.cols = 8 := by decide
  have hv : compassVector 5 = (1, 0) := by decide
  simp only [torusCell, hrow, hcol, hrows, hcols, hv, mul_zero, add_zero, zero_add]
  have h1 := Int.emod_nonneg (((k + 1 : Nat) : Int) * 1) (by decide : (5 : Int) ≠ 0)
  have h2 := Int.emod_lt_of_pos (((k + 1 : Nat) : Int) * 1) (by decide : (0 : Int) < 5)
  have h3 : (4 : Int) % 8 = 4 := by decide
  rw [h3, staleArena_column_empty _ h1 h2]
  rfl

/-! ### C4: directions outside 1..8 -/

theorem getNextCell_invalid (A : Arena) (row col d : Int) (hd : d < 1 ∨ d > 8) :
    A.getNextCell row col d = (-1, -1) := by
  simp [Arena.getNextCell, hd]

theorem outOfBounds_neg_one (A : Arena) : A.outOfBounds (-1) (-1) := by
  simp [Arena.outOfBounds]

theorem moveRobotLoop_invalid (A : Arena) (robot : RobotPtr) (d : Int) (hd : d < 1 ∨ d > 8)
    (n : Nat) (row col : Int) :
    Arena.moveRobotLoop robot d n A row col = (A, some (row, col)) := by
  cases n with
  | zero => rfl
  | succ n =>
    simp [Arena.moveRobotLoop, getNextCell_invalid A row col d hd, outOfBounds_neg_one]

theorem updRobot_move_to_self (A : Arena) (robot : RobotPtr) :
    A.updRobot robot (RobotBase.move_to (A.heap robot).get_current_location.1
      (A.heap robot).get_current_location.2) = A := by
  obtain ⟨rows, cols, grid, robots, heap, randStream⟩ := A
  simp only [Arena.updRobot, RobotBase.get_current_location, Arena.mk.injEq, true_and, and_true]
  funext q
  by_cases hq : q = robot
  · subst hq
    simp [RobotBase.move_to]
  · simp [hq]

/-- C4: with a direction outside 1..8 a radar cast returns the empty list (its first
iteration leaves the loop), and a move of any distance returns the state it was given: the
grid, the robot's recorded position and everything else are unchanged. -/
theorem invalid_direction_no_effect (A : Arena) (robot : RobotPtr) (d distance : Int)
    (fuel : Nat) (hd : d < 1 ∨ d > 8) :
    A.simulateRadar robot d (fuel + 1) = some [] ∧ A.moveRobot robot d distance = A := by
  constructor
  · simp [Arena.simulateRadar, Arena.simulateRadarLoop, getNextCell_invalid A _ _ d hd,
      outOfBounds_neg_one]
  · simp only [Arena.moveRobot, moveRobotLoop_invalid A robot d hd]
    exact updRobot_move_to_self A robot

/-- C4, witness: direction 0 ("do not move") with distance 2 in `demoArena`. -/
theorem invalid_direction_no_effect_witness :
    demoArena.simulateRadar 0 0 (0 + 1) = some [] ∧ demoArena.moveRobot 0 0 2 = demoArena :=
  invalid_direction_no_effect demoArena 0 0 2 0 (by decide)

/-! ### C6: the armor formula in binary64 -/

theorem tenth_is_nearest_double :
    Dyadic.tenth.num * 2 = 7205759403792794 ∧ Dyadic.tenth.scale + 1 = 56 ∧
      (2 : Int) ^ 52 ≤ 7205759403792794 ∧ (7205759403792794 : Int) < 2 ^ 53 ∧
      |10 * (7205759403792794 : Int) - 2 ^ 56| ≤ 5 := by
  decide

set_option maxRecDepth 100000 in
theorem armorDamage_table :
    ∀ b : Fin 90, ∀ m : Fin 5,
      armorDamage (b.val : Int) (m.val : Int) = ((b.val : Int) * (10 - (m.val : Int))) / 10 ∧
        (6 * (b.val : Int)) / 10 ≤ armorDamage (b.val : Int) (m.val : Int) ∧
        armorDamage (b.val : Int) (m.val : Int) ≤ (b.val : Int) := by
  decide

theorem armorDamage_min (b a : Int) : armorDamage b a = armorDamage b (min a 4) := by
  simp [armorDamage]

/-- Outside the base damages that `resolveShot` passes (10..60) the `double` product can fall
just below the exact value: for base damage 90 and armor 3 it is below 63 and converts to
62. -/
theorem armorDamage_not_exact_floor :
    armorDamage 90 3 = 62 ∧ armorDamage 90 3 ≠ ((90 : Int) * (10 - min 3 4)) / 10 := by
  decide

/-- For every base damage `0 ≤ b ≤ 89` and every armor `a ≥ 0` the damage is
`floor(b * (10 - min(a, 4)) / 10)`; it is at least `floor(0.6 * b)` and at most `b`. -/
theorem armorDamage_exact_floor_below_90 (b a : Int) (hb0 : 0 ≤ b) (hb : b ≤ 89)
    (ha : 0 ≤ a) :
    armorDamage b a = (b * (10 - min a 4)) / 10 ∧
      (6 * b) / 10 ≤ armorDamage b a ∧ armorDamage b a ≤ b := by
  have hm0 : 0 ≤ min a 4 := le_min ha (by decide)
  have hm4 : min a 4 ≤ 4 := min_le_right a 4
  have key := armorDamage_table ⟨b.toNat, by omega⟩ ⟨(min a 4).toNat, by omega⟩
  simp only [Int.toNat_of_nonneg hb0, Int.toNat_of_nonneg hm0] at key
  rw [armorDamage_min b a]
  exact key

/-- Base damage 50 against armor 2 gives 40. -/
theorem armorDamage_exact_floor_below_90_witness :
    armorDamage 50 2 = ((50 : Int) * (10 - min 2 4)) / 10 ∧
      (6 * (50 : Int)) / 10 ≤ armorDamage 50 2 ∧ armorDamage 50 2 ≤ 50 :=
  armorDamage_exact_floor_below_90 50 2 (by decide) (by decide) (by decide)

/-- C7: `resolveShot` returns the state it was given (no cell, no health and no armor
changes, no roll is drawn) when the target is the shooter's own cell, when the target is
outside the grid, or when the weapon is the Hammer (code 2) and the target is at Chebyshev
distance greater than 1 from the shooter. -/
theorem resolveShot_no_effect (A : Arena) (shooter : RobotPtr) (targetRow targetCol : Int)
    (h : (targetRow = (A.heap shooter).m_location_row ∧
            targetCol = (A.heap shooter).m_location_col) ∨
          A.outOfBounds targetRow targetCol ∨
          ((A.heap shooter).m_weapon = 2 ∧
            1 < max |targetRow - (A.heap shooter).m_location_row|
              |targetCol - (A.heap shooter).m_location_col|)) :
    A.resolveShot shooter targetRow targetCol = A := by
  unfold Arena.resolveShot
  simp only [RobotBase.get_current_location, RobotBase.get_weapon]
  rcases h with h | h | ⟨hw, hdist⟩
  · rw [if_pos h]
  · split_ifs <;> rfl
  · have hfar : ¬ (|targetRow - (A.heap shooter).m_location_row| ≤ 1 ∧
        |targetCol - (A.heap shooter).m_location_col| ≤ 1) := by
      intro hnear
      have := max_le hnear.1 hnear.2
      omega
    simp only [hw, if_neg hfar]
    split_ifs <;> first | rfl | omega

/-- C7, witness: robot 1 of `demoArena` swings its Hammer from `(0, 4)` at `(0, 1)`. -/
theorem resolveShot_no_effect_witness : demoArena.resolveShot 1 0 1 = demoArena :=
  resolveShot_no_effect demoArena 1 0 1 (Or.inr (Or.inr (by decide)))

/-! ### C8: the cell of a robot destroyed by a shot -/

set_option maxRecDepth 1000000 in
/-- C8, the code at the failing input: in `ambushArena` (a consistent state) robot 0 strikes
`(0, 4)` with its Hammer, and `resolveShot` issues the single call
`applyDamageToCell(0, 4, 53)` on the Occupied cell of robot 1.  When the call returns, the
health of robot 1 is 0 and its cell is a plain Empty cell: the kind is not Destroyed and no
glyph was written.  The cell can therefore be entered: later in the same round robot 2 walks
onto `(0, 4)`, and the sweep at the end of the round stamps the recorded position of robot 1
as Destroyed and clears the reference, so that robot 2, alive and in the roster, is recorded
on a Destroyed cell that does not reference it. -/
theorem applyDamageToCell_kill_not_DEAD :
    ambushArena.consistent ∧
      ambushArena.shotCalls 0 0 4 = [((0, 4), 53)] ∧
      ambushArena.grid 0 4 = { type := CellType.ROBOT, robot := some 1 } ∧
      ((ambushArena.applyDamageToCell 0 4 53).heap 1).get_health = 0 ∧
      (ambushArena.applyDamageToCell 0 4 53).grid 0 4
        = { type := CellType.EMPTY, specialChar := "", robot := none } ∧
      ((ambushArena.applyDamageToCell 0 4 53).grid 0 4).type ≠ CellType.DEAD ∧
      (battleRound ambushPlans 10
          { arena := ambushArena, round := 0, stagnationCounter := 0 }).map
        (fun r => r.1.arena.robots) = some [0, 2] ∧
      (battleRound ambushPlans 10
          { arena := ambushArena, round := 0, stagnationCounter := 0 }).map
        (fun r => ((r.1.arena.heap 2).get_health, (r.1.arena.heap 2).get_current_location))
        = some (100, (0, 4)) ∧
      (battleRound ambushPlans 10
          { arena := ambushArena, round := 0, stagnationCounter := 0 }).map
        (fun r => ((r.1.arena.grid 0 4).type, (r.1.arena.grid 0 4).robot))
        = some (CellType.DEAD, none) ∧
      (battleRound ambushPlans 10
          { arena := ambushArena, round := 0, stagnationCounter := 0 }).map
        (fun r => decide r.1.arena.consistent) = some false := by
  decide

/-- What the code does on every kill: for an Occupied in-bounds cell holding a reference to
robot `p`, if the health of `p` is at most 0 after the damage is applied, then when
`applyDamageToCell` returns the cell has kind Empty and no reference, and its glyph field was
not written. -/
theorem applyDamageToCell_kill_clears_cell (A : Arena) (row col baseDamage : Int)
    (p : RobotPtr) (hin : ¬ A.outOfBounds row col)
    (hty : (A.grid row col).type = CellType.ROBOT) (hp : (A.grid row col).robot = some p)
    (hdead : ((A.applyDamageToCell row col baseDamage).heap p).get_health ≤ 0) :
    ((A.applyDamageToCell row col baseDamage).grid row col).type = CellType.EMPTY ∧
      ((A.applyDamageToCell row col baseDamage).grid row col).robot = none ∧
      ((A.applyDamageToCell row col baseDamage).grid row col).specialChar
        = (A.grid row col).specialChar := by
  unfold Arena.applyDamageToCell at hdead ⊢
  simp only [if_neg hin, hp, hty, if_true] at hdead ⊢
  split_ifs at hdead ⊢ with hh
  · simp [Arena.setCell, Arena.updRobot]
  · exact absurd hdead hh

/-- The hit of 50 on robot 1 of `demoArena` (health 10): its cell is Empty afterwards. -/
theorem applyDamageToCell_kill_clears_cell_witness :
    ((demoArena.applyDamageToCell 0 4 50).grid 0 4).type = CellType.EMPTY ∧
      ((demoArena.applyDamageToCell 0 4 50).grid 0 4).robot = none ∧
      ((demoArena.applyDamageToCell 0 4 50).grid 0 4).specialChar
        = (demoArena.grid 0 4).specialChar :=
  applyDamageToCell_kill_clears_cell demoArena 0 4 50 1 (by decide) (by decide) (by decide)
    (by decide)

/-! ### C9: a shot never alters a cell that is not Occupied -/

theorem applyDamageToCell_keeps_other (A : Arena) (row col baseDamage r c : Int)
    (h : (A.grid r c).type ≠ CellType.ROBOT) :
    (A.applyDamageToCell row col baseDamage).grid r c = A.grid r c := by
  unfold Arena.applyDamageToCell
  by_cases hout : A.outOfBounds row col
  · rw [if_pos hout]
  · rw [if_neg hout]
    cases hp : (A.grid row col).robot with
    | none => rfl
    | some p =>
      by_cases hty : (A.grid row col).type = CellType.ROBOT
      · simp only [if_pos hty]
        split_ifs with hh
        · simp only [Arena.setCell, Arena.updRobot]
          split_ifs with heq
          · obtain ⟨h1, h2⟩ := heq
            subst h1 h2
            exact absurd hty h
          · rfl
        · rfl
      · simp only [if_neg hty]

theorem fireAt_keeps_other (lo span : Nat) (A : Arena) (rc : Int × Int) (r c : Int)
    (h : (A.grid r c).type ≠ CellType.ROBOT) :
    (Arena.fireAt lo span A rc).grid r c = A.grid r c := by
  unfold Arena.fireAt
  exact applyDamageToCell_keeps_other (A.rand).2 _ _ _ r c h

theorem foldl_fireAt_keeps_other (lo span : Nat) (cells : List (Int × Int)) (r c : Int) :
    ∀ A : Arena, (A.grid r c).type ≠ CellType.ROBOT →
      (cells.foldl (Arena.fireAt lo span) A).grid r c = A.grid r c := by
  induction cells with
  | nil => intro A _; rfl
  | cons rc cells ih =>
    intro A h
    have h1 := fireAt_keeps_other lo span A rc r c h
    rw [List.foldl_cons, ih _ (by rw [h1]; exact h), h1]

/-- C9: `resolveShot` leaves every cell that was not Occupied before the shot as it was, in
particular its kind: Empty cells, obstacles and Destroyed markers are never altered. -/
theorem resolveShot_keeps_unoccupied (A : Arena) (shooter : RobotPtr)
    (targetRow targetCol r c : Int) (h : (A.grid r c).type ≠ CellType.ROBOT) :
    (A.resolveShot shooter targetRow targetCol).grid r c = A.grid r c ∧
      ((A.resolveShot shooter targetRow targetCol).grid r c).type = (A.grid r c).type := by
  have key : (A.resolveShot shooter targetRow targetCol).grid r c = A.grid r c := by
    unfold Arena.resolveShot
    simp only
    split_ifs
    all_goals first
      | rfl
      | exact foldl_fireAt_keeps_other _ _ _ r c A h
      | exact fireAt_keeps_other _ _ A _ r c h
  exact ⟨key, by rw [key]⟩

/-- C9, witness: robot 0 of `demoArena` fires its Railgun along row 0; the pit at `(0, 2)`
lies in the footprint and stays a pit. -/
theorem resolveShot_keeps_unoccupied_witness :
    (demoArena.resolveShot 0 0 4).grid 0 2 = demoArena.grid 0 2 ∧
      ((demoArena.resolveShot 0 0 4).grid 0 2).type = (demoArena.grid 0 2).type :=
  resolveShot_keeps_unoccupied demoArena 0 0 4 0 2 (by decide)

/-! ### C10: a move toward an adjacent pit -/

/-- C10, the code at the failing input: robot 0 of `demoArena` stands at `(0, 1)`, its eastern
neighbour `(0, 2)` is a pit, and it is moved east by 2.  `moveRobot` returns at the pit test
of the first step: the recorded position is still `(0, 1)`, the robot still occupies
`(0, 1)`, and the pit cell holds no robot. -/
theorem moveRobot_pit_not_entered :
    (demoArena.heap 0).get_current_location = (0, 1) ∧
      demoArena.getNextCell 0 1 3 = (0, 2) ∧
      (demoArena.grid 0 2).type = CellType.OBSTACLE_PIT ∧
      ((demoArena.moveRobot 0 3 2).heap 0).get_current_location = (0, 1) ∧
      ((demoArena.moveRobot 0 3 2).heap 0).get_current_location ≠ (0, 2) ∧
      (demoArena.moveRobot 0 3 2).grid 0 1 = { type := CellType.ROBOT, robot := some 0 } ∧
      (demoArena.moveRobot 0 3 2).grid 0 2 = { type := CellType.OBSTACLE_PIT } := by
  decide

theorem moveRobot_pit_returns_at_once (A : Arena) (robot : RobotPtr) (d distance : Int)
    (hdist : 1 ≤ distance)
    (hin : ¬ A.outOfBounds
      (A.getNextCell (A.heap robot).m_location_row (A.heap robot).m_location_col d).1
      (A.getNextCell (A.heap robot).m_location_row (A.heap robot).m_location_col d).2)
    (hpit : (A.grid
      (A.getNextCell (A.heap robot).m_location_row (A.heap robot).m_location_col d).1
      (A.getNextCell (A.heap robot).m_location_row (A.heap robot).m_location_col d).2).type
        = CellType.OBSTACLE_PIT) :
    A.moveRobot robot d distance = A := by
  obtain ⟨n, hn⟩ : ∃ n : Nat, distance.toNat = n + 1 := ⟨distance.toNat - 1, by omega⟩
  simp only [Arena.moveRobot, RobotBase.get_current_location, hn, Arena.moveRobotLoop,
    if_neg hin, hpit]

/-! ### C5: the footprint of a shot -/

theorem mem_intRange (lo hi x : Int) : x ∈ intRange lo hi ↔ lo ≤ x ∧ x ≤ hi := by
  simp only [intRange, List.mem_map, List.mem_range]
  constructor
  · rintro ⟨i, hi', rfl⟩
    omega
  · rintro ⟨h1, h2⟩
    exact ⟨(x - lo).toNat, by omega, by omega⟩

theorem nodup_intRange (lo hi : Int) : (intRange lo hi).Nodup := by
  refine List.Nodup.map ?_ (List.nodup_range _)
  intro i j hij
  simp only at hij
  omega

theorem mem_blockCells (targetRow targetCol radius r c : Int) :
    (r, c) ∈ blockCells targetRow targetCol radius
      ↔ |r - targetRow| ≤ radius ∧ |c - targetCol| ≤ radius := by
  have hprod : blockCells targetRow targetCol radius
      = (intRange (targetRow - radius) (targetRow + radius)) ×ˢ
          (intRange (targetCol - radius) (targetCol + radius)) := rfl
  rw [hprod, List.mem_product, mem_intRange, mem_intRange, abs_le, abs_le]
  constructor <;> rintro ⟨⟨h1, h2⟩, h3, h4⟩ <;> refine ⟨⟨?_, ?_⟩, ?_, ?_⟩ <;> omega

theorem nodup_blockCells (targetRow targetCol radius : Int) :
    (blockCells targetRow targetCol radius).Nodup :=
  List.Nodup.product (nodup_intRange _ _) (nodup_intRange _ _)

theorem mem_rowCells (targetRow cols r c : Int) :
    (r, c) ∈ rowCells targetRow cols ↔ r = targetRow ∧ 0 ≤ c ∧ c < cols := by
  simp only [rowCells, List.mem_map, mem_intRange, Prod.mk.injEq]
  constructor
  · rintro ⟨x, ⟨h1, h2⟩, rfl, rfl⟩
    exact ⟨rfl, h1, by omega⟩
  · rintro ⟨rfl, h1, h2⟩
    exact ⟨c, ⟨h1, by omega⟩, rfl, rfl⟩

theorem nodup_rowCells (targetRow cols : Int) : (rowCells targetRow cols).Nodup := by
  refine List.Nodup.map ?_ (nodup_intRange _ _)
  intro i j hij
  simpa using hij

theorem rolledCalls_cells (draws : Nat → Nat) (lo span start : Nat)
    (cells : List (Int × Int)) :
    (rolledCalls draws lo span start cells).map Prod.fst = cells := by
  simp only [rolledCalls, List.map_map]
  have : (Prod.fst ∘ fun ic : Nat × (Int × Int) =>
      (ic.2, (lo : Int) + ((draws ic.1 % span : Nat) : Int))) = Prod.snd := by
    funext ic
    rfl
  rw [this, List.enumFrom_map_snd]

theorem rolledCalls_getElem? (draws : Nat → Nat) (lo span start : Nat)
    (cells : List (Int × Int)) (i : Nat) (call : (Int × Int) × Int)
    (h : (rolledCalls draws lo span start cells)[i]? = some call) (hspan : 0 < span) :
    call.2 = (lo : Int) + (draws (start + i) : Int) % (span : Int) ∧
      (lo : Int) ≤ call.2 ∧ call.2 ≤ (lo : Int) + (span : Int) - 1 := by
  simp only [rolledCalls, List.getElem?_map, List.getElem?_enumFrom, Option.map_map] at h
  cases hc : cells[i]? with
  | none => simp [hc] at h
  | some cell =>
    simp only [hc, Option.map_some', Function.comp_apply, Option.some.injEq] at h
    subst h
    simp only [Int.natCast_mod]
    have h1 := Int.emod_nonneg (draws (start + i) : Int)
      (by exact_mod_cast (Nat.pos_iff_ne_zero.mp hspan) : (span : Int) ≠ 0)
    have h2 := Int.emod_lt_of_pos (draws (start + i) : Int)
      (by exact_mod_cast hspan : (0 : Int) < (span : Int))
    refine ⟨trivial, ?_, ?_⟩ <;> omega

theorem skip_zero (A : Arena) : A.skip 0 = A := rfl

theorem skip_skip_one (A : Arena) (k : Nat) : (A.skip k).skip 1 = A.skip (k + 1) := by
  simp only [Arena.skip, Arena.mk.injEq, true_and]
  funext n
  congr 1
  omega

theorem applyDamageToCell_randStream (A : Arena) (row col baseDamage : Int) :
    (A.applyDamageToCell row col baseDamage).randStream = A.randStream := by
  unfold Arena.applyDamageToCell
  by_cases hout : A.outOfBounds row col
  · rw [if_pos hout]
  · rw [if_neg hout]
    cases hp : (A.grid row col).robot with
    | none => rfl
    | some p =>
      by_cases hty : (A.grid row col).type = CellType.ROBOT
      · simp only [if_pos hty]
        split_ifs <;> rfl
      · simp only [if_neg hty]

theorem applyDamageToCell_skip (A : Arena) (k : Nat) (row col baseDamage : Int) :
    (A.skip k).applyDamageToCell row col baseDamage
      = (A.applyDamageToCell row col baseDamage).skip k := by
  unfold Arena.applyDamageToCell
  have hb : (A.skip k).outOfBounds row col ↔ A.outOfBounds row col := Iff.rfl
  have hg : (A.skip k).grid = A.grid := rfl
  have hh : (A.skip k).heap = A.heap := rfl
  by_cases hout : A.outOfBounds row col
  · rw [if_pos hout, if_pos (hb.mpr hout)]
  · rw [if_neg hout, if_neg (fun h => hout (hb.mp h)), hg, hh]
    cases hp : (A.grid row col).robot with
    | none => rfl
    | some p =>
      by_cases hty : (A.grid row col).type = CellType.ROBOT
      · simp only [if_pos hty]
        have hhealth : (((A.skip k).updRobot p (RobotBase.take_damage
            (armorDamage baseDamage (A.heap p).get_armor))).updRobot p
              (RobotBase.reduce_armor 1)).heap
            = ((A.updRobot p (RobotBase.take_damage
            (armorDamage baseDamage (A.heap p).get_armor))).updRobot p
              (RobotBase.reduce_armor 1)).heap := rfl
        rw [hhealth]
        split_ifs <;> rfl
      · simp only [if_neg hty]

theorem fireAt_skip (lo span : Nat) (B : Arena) (k : Nat) (rc : Int × Int) :
    Arena.fireAt lo span (B.skip k) rc
      = (B.applyDamageToCell rc.1 rc.2
          ((lo : Int) + ((B.randStream k % span : Nat) : Int))).skip (k + 1) := by
  have h1 : ((B.skip k).rand).1 = B.randStream k := by
    simp [Arena.rand, Arena.skip]
  have h2 : ((B.skip k).rand).2 = B.skip (k + 1) := skip_skip_one B k
  unfold Arena.fireAt
  rw [h1, h2, applyDamageToCell_skip]

theorem foldl_fireAt_skip (lo span : Nat) (cells : List (Int × Int)) :
    ∀ (k : Nat) (B : Arena),
      cells.foldl (Arena.fireAt lo span) (B.skip k)
        = (B.applyCalls (rolledCalls B.randStream lo span k cells)).skip
            (k + cells.length) := by
  induction cells with
  | nil => intro k B; rfl
  | cons rc cells ih =>
    intro k B
    rw [List.foldl_cons, fireAt_skip, ih, applyDamageToCell_randStream]
    simp only [rolledCalls, List.enumFrom_cons, List.map_cons, Arena.applyCalls,
      List.foldl_cons, List.length_cons]
    congr 1
    omega

theorem rolledCalls_length (draws : Nat → Nat) (lo span start : Nat)
    (cells : List (Int × Int)) :
    (rolledCalls draws lo span start cells).length = cells.length := by
  simp [rolledCalls]

theorem foldl_fireAt_eq_applyCalls (lo span : Nat) (cells : List (Int × Int)) (A : Arena) :
    cells.foldl (Arena.fireAt lo span) A
      = (A.applyCalls (rolledCalls A.randStream lo span 0 cells)).skip
          (rolledCalls A.randStream lo span 0 cells).length := by
  have h := foldl_fireAt_skip lo span cells 0 A
  rw [skip_zero, Nat.zero_add] at h
  rw [h, rolledCalls_length]

theorem resolveShot_eq_applyCalls (A : Arena) (shooter : RobotPtr)
    (targetRow targetCol : Int) :
    A.resolveShot shooter targetRow targetCol
      = (A.applyCalls (A.shotCalls shooter targetRow targetCol)).skip
          (A.shotCalls shooter targetRow targetCol).length := by
  unfold Arena.resolveShot Arena.shotCalls
  simp only
  split_ifs
  all_goals first
    | rfl
    | exact foldl_fireAt_eq_applyCalls _ _ _ A
    | exact foldl_fireAt_eq_applyCalls 50 11 [(targetRow, targetCol)] A

theorem shotCalls_nodup (A : Arena) (shooter : RobotPtr) (targetRow targetCol : Int) :
    ((A.shotCalls shooter targetRow targetCol).map Prod.fst).Nodup := by
  unfold Arena.shotCalls
  simp only
  split_ifs
  all_goals first
    | exact List.nodup_nil
    | (rw [rolledCalls_cells]; exact nodup_blockCells _ _ _)
    | (rw [rolledCalls_cells]; exact nodup_rowCells _ _)
    | (rw [rolledCalls_cells]; exact List.nodup_singleton _)

theorem shotCalls_mem (A : Arena) (shooter : RobotPtr) (targetRow targetCol r c : Int)
    (hin : ¬ A.outOfBounds targetRow targetCol)
    (hne : ¬ (targetRow = (A.heap shooter).m_location_row ∧
      targetCol = (A.heap shooter).m_location_col))
    (hrc : ¬ A.outOfBounds r c) :
    (r, c) ∈ (A.shotCalls shooter targetRow targetCol).map Prod.fst ↔
      inFootprint (A.heap shooter).m_weapon (A.heap shooter).m_location_row
        (A.heap shooter).m_location_col targetRow targetCol r c := by
  unfold Arena.shotCalls inFootprint
  simp only [RobotBase.get_current_location, RobotBase.get_weapon, if_neg hne, if_neg hin]
  simp only [Arena.outOfBounds, not_or, not_lt, ge_iff_le, not_le] at hrc
  split_ifs with h0 h1 h2 hnear h3
  · rw [rolledCalls_cells, mem_blockCells]
  · rw [rolledCalls_cells, mem_rowCells]
    constructor
    · rintro ⟨h, _⟩
      exact h
    · intro h
      exact ⟨h, hrc.2.2.1, hrc.2.2.2⟩
  · rw [rolledCalls_cells]
    simp only [List.mem_singleton, Prod.mk.injEq]
    constructor
    · intro h
      exact ⟨h, hnear⟩
    · intro h
      exact h.1
  · simp only [List.map_nil, List.not_mem_nil, false_iff, not_and]
    intro _ h1 h2
    exact hnear ⟨h1, h2⟩
  · rw [rolledCalls_cells, mem_blockCells]
  · simp

theorem shotCalls_rolls (A : Arena) (shooter : RobotPtr) (targetRow targetCol : Int)
    (i : Nat) (call : (Int × Int) × Int)
    (h : (A.shotCalls shooter targetRow targetCol)[i]? = some call) :
    call.2 = (damageRange (A.heap shooter).m_weapon).1 + (A.randStream i : Int) %
        ((damageRange (A.heap shooter).m_weapon).2
          - (damageRange (A.heap shooter).m_weapon).1 + 1) ∧
      (damageRange (A.heap shooter).m_weapon).1 ≤ call.2 ∧
      call.2 ≤ (damageRange (A.heap shooter).m_weapon).2 := by
  unfold Arena.shotCalls at h
  simp only [RobotBase.get_current_location, RobotBase.get_weapon] at h
  unfold damageRange
  split_ifs at h with _ _ h0 h1 h2 hnear h3
  · simp at h
  · simp at h
  · have := rolledCalls_getElem? _ _ _ _ _ i call h (by decide)
    simp only [if_pos h0]
    simpa using this
  · have := rolledCalls_getElem? _ _ _ _ _ i call h (by decide)
    simp only [if_neg h0, if_pos h1]
    simpa using this
  · have := rolledCalls_getElem? _ _ _ _ _ i call h (by decide)
    simp only [if_neg h0, if_neg h1, if_pos h2]
    simpa using this
  · simp at h
  · have := rolledCalls_getElem? _ _ _ _ _ i call h (by decide)
    simp only [if_neg h0, if_neg h1, if_neg h2]
    simpa using this
  · simp at h

theorem applyDamageToCell_outOfBounds (B : Arena) (r c b : Int) (h : B.outOfBounds r c) :
    B.applyDamageToCell r c b = B := by
  unfold Arena.applyDamageToCell
  rw [if_pos h]

/-- C5: for an in-bounds target different from the shooter's cell and every stream of random
draws, `resolveShot` is the execution, in order, of the calls of `shotCalls`; no cell is
called twice; an in-bounds cell is called exactly when it lies in the footprint of the
shooter's weapon (the shooter's own cell is not excluded); call number `i` rolls its own
draw, number `i` of the stream, and its base damage lies in the inclusive range of the
weapon; and a call on a cell outside the grid does nothing. -/
theorem resolveShot_footprint (A : Arena) (shooter : RobotPtr) (targetRow targetCol : Int)
    (hin : ¬ A.outOfBounds targetRow targetCol)
    (hne : ¬ (targetRow = (A.heap shooter).m_location_row ∧
      targetCol = (A.heap shooter).m_location_col)) :
    A.resolveShot shooter targetRow targetCol
        = (A.applyCalls (A.shotCalls shooter targetRow targetCol)).skip
            (A.shotCalls shooter targetRow targetCol).length ∧
      ((A.shotCalls shooter targetRow targetCol).map Prod.fst).Nodup ∧
      (∀ r c : Int, ¬ A.outOfBounds r c →
        ((r, c) ∈ (A.shotCalls shooter targetRow targetCol).map Prod.fst ↔
          inFootprint (A.heap shooter).m_weapon (A.heap shooter).m_location_row
            (A.heap shooter).m_location_col targetRow targetCol r c)) ∧
      (∀ (i : Nat) (call : (Int × Int) × Int),
        (A.shotCalls shooter targetRow targetCol)[i]? = some call →
          call.2 = (damageRange (A.heap shooter).m_weapon).1 + (A.randStream i : Int) %
              ((damageRange (A.heap shooter).m_weapon).2
                - (damageRange (A.heap shooter).m_weapon).1 + 1) ∧
            (damageRange (A.heap shooter).m_weapon).1 ≤ call.2 ∧
            call.2 ≤ (damageRange (A.heap shooter).m_weapon).2) ∧
      (∀ (B : Arena) (r c b : Int), B.outOfBounds r c → B.applyDamageToCell r c b = B) :=
  ⟨resolveShot_eq_applyCalls A shooter targetRow targetCol,
    shotCalls_nodup A shooter targetRow targetCol,
    fun r c hrc => shotCalls_mem A shooter targetRow targetCol r c hin hne hrc,
    fun i call h => shotCalls_rolls A shooter targetRow targetCol i call h,
    applyDamageToCell_outOfBounds⟩

/-- C5, witness: robot 0 of `demoArena` fires its Railgun from `(0, 1)` at `(0, 4)`: eight
calls, one per cell of row 0, its own cell `(0, 1)` among them. -/
theorem resolveShot_footprint_witness :
    (demoArena.shotCalls 0 0 4).map Prod.fst
        = [(0, 0), (0, 1), (0, 2), (0, 3), (0, 4), (0, 5), (0, 6), (0, 7)] ∧
      demoArena.resolveShot 0 0 4
        = (demoArena.applyCalls (demoArena.shotCalls 0 0 4)).skip
            (demoArena.shotCalls 0 0 4).length ∧
      ((demoArena.shotCalls 0 0 4).map Prod.fst).Nodup :=
  ⟨by decide, (resolveShot_footprint demoArena 0 0 4 (by decide) (by decide)).1,
    (resolveShot_footprint demoArena 0 0 4 (by decide) (by decide)).2.1⟩

/-! ### C6: the damage handed to `take_damage` -/

/-- C11, the code at the failing input: robot 0 of `demoArena` stands at `(0, 1)` on the top
edge; the raw northern neighbour `(-1, 1)` is outside the grid.  Moved north by 1, the robot
does not stay: `getNextCell` wraps to `(4, 1)`, the robot leaves `(0, 1)` Empty, occupies
`(4, 1)` and is recorded there. -/
theorem moveRobot_wraps_over_edge :
    (demoArena.heap 0).get_current_location = (0, 1) ∧
      demoArena.outOfBounds (0 + (directions.getD 0 (0, 0)).1) (1 + (directions.getD 0 (0, 0)).2) ∧
      demoArena.getNextCell 0 1 1 = (4, 1) ∧
      ((demoArena.moveRobot 0 1 1).heap 0).get_current_location = (4, 1) ∧
      ((demoArena.moveRobot 0 1 1).grid 0 1).type = CellType.EMPTY ∧
      (demoArena.moveRobot 0 1 1).grid 4 1 = { type := CellType.ROBOT, robot := some 0 } := by
  decide

/-! ### C12: the recorded position after a move -/

/-- C12, the code at the failing input: robot 1 of `demoArena` stands at `(0, 4)` and is moved
west by 2.  It enters `(0, 3)`; the second step meets the pit and `moveRobot` returns without
`move_to`.  The recorded position is still `(0, 4)`, a cell that is now Empty and holds no
reference, while `(0, 3)` is Occupied with a reference to robot 1. -/
theorem moveRobot_stale_position :
    demoArena.grid 0 4 = { type := CellType.ROBOT, robot := some 1 } ∧
      (demoArena.heap 1).get_current_location = (0, 4) ∧
      Arena.moveRobotTrail 1 7 2 demoArena 0 4 = [(0, 3)] ∧
      ((demoArena.moveRobot 1 7 2).heap 1).get_current_location = (0, 4) ∧
      (demoArena.moveRobot 1 7 2).grid 0 4 = { type := CellType.EMPTY, robot := none } ∧
      (demoArena.moveRobot 1 7 2).grid 0 3 = { type := CellType.ROBOT, robot := some 1 } := by
  decide

/-! ### C13: where a move ends and what it leaves behind -/

theorem stepInto_type (A : Arena) (robot : RobotPtr) (row col nr nc r c : Int) :
    ((A.stepInto robot row col nr nc).grid r c).type
      = if r = nr ∧ c = nc then CellType.ROBOT
        else if r = row ∧ c = col then CellType.EMPTY
        else (A.grid r c).type := by
  simp only [Arena.stepInto, Arena.setCell]
  split_ifs <;> rfl

theorem stepInto_dims (A : Arena) (robot : RobotPtr) (row col nr nc : Int) :
    (A.stepInto robot row col nr nc).rows = A.rows ∧
      (A.stepInto robot row col nr nc).cols = A.cols ∧
      (A.stepInto robot row col nr nc).heap = A.heap := ⟨rfl, rfl, rfl⟩

/-- One iteration of the loop of `moveRobot` either stops (by `break` or `return`) in the
state it started from, or enters the next cell and continues from a state whose grid is that
of `stepInto`. -/
theorem moveRobotLoop_step (robot : RobotPtr) (d : Int) (n : Nat) (A : Arena)
    (row col : Int) :
    (Arena.moveRobotTrail robot d (n + 1) A row col = [] ∧
        (Arena.moveRobotLoop robot d (n + 1) A row col).1 = A ∧
        ((Arena.moveRobotLoop robot d (n + 1) A row col).2 = none ∨
          (Arena.moveRobotLoop robot d (n + 1) A row col).2 = some (row, col))) ∨
      (∃ B : Arena,
        ¬ A.outOfBounds (A.getNextCell row col d).1 (A.getNextCell row col d).2 ∧
        B.grid = (A.stepInto robot row col (A.getNextCell row col d).1
          (A.getNextCell row col d).2).grid ∧
        B.rows = A.rows ∧ B.cols = A.cols ∧
        (B.heap robot).get_current_location = (A.heap robot).get_current_location ∧
        Arena.moveRobotTrail robot d (n + 1) A row col
          = ((A.getNextCell row col d).1, (A.getNextCell row col d).2) ::
            Arena.moveRobotTrail robot d n B (A.getNextCell row col d).1
              (A.getNextCell row col d).2 ∧
        Arena.moveRobotLoop robot d (n + 1) A row col
          = Arena.moveRobotLoop robot d n B (A.getNextCell row col d).1
              (A.getNextCell row col d).2) := by
  by_cases hout : A.outOfBounds (A.getNextCell row col d).1 (A.getNextCell row col d).2
  · left
    simp [Arena.moveRobotTrail, Arena.moveRobotLoop, hout]
  · cases hty : (A.grid (A.getNextCell row col d).1 (A.getNextCell row col d).2).type with
    | EMPTY =>
      right
      refine ⟨_, hout, rfl, rfl, rfl, rfl, ?_, ?_⟩
      · simp [Arena.moveRobotTrail, hout, hty]
      · simp [Arena.moveRobotLoop, hout, hty]
    | OBSTACLE_FLAMETHROWER =>
      right
      refine ⟨((A.rand).2.updRobot robot
          (RobotBase.take_damage ((30 : Int) + ((A.rand).1 % 21 : Nat)))).stepInto robot row col
          (A.getNextCell row col d).1 (A.getNextCell row col d).2,
        hout, rfl, rfl, rfl, ?_, ?_, ?_⟩
      · simp [Arena.stepInto, Arena.setCell, Arena.updRobot, Arena.rand,
          RobotBase.take_damage, RobotBase.get_current_location]
      · simp only [Arena.moveRobotTrail, if_neg hout, hty]
      · simp only [Arena.moveRobotLoop, if_neg hout, hty]
    | OBSTACLE_PIT =>
      left
      simp [Arena.moveRobotTrail, Arena.moveRobotLoop, hout, hty]
    | OBSTACLE_MOUND =>
      left
      simp [Arena.moveRobotTrail, Arena.moveRobotLoop, hout, hty]
    | ROBOT =>
      left
      simp [Arena.moveRobotTrail, Arena.moveRobotLoop, hout, hty]
    | DEAD =>
      left
      simp [Arena.moveRobotTrail, Arena.moveRobotLoop, hout, hty]

theorem outOfBounds_congr (A B : Arena) (hr : B.rows = A.rows) (hc : B.cols = A.cols)
    (r c : Int) : B.outOfBounds r c ↔ A.outOfBounds r c := by
  simp only [Arena.outOfBounds, hr, hc]

theorem moveRobotLoop_frame (robot : RobotPtr) (d : Int) (n : Nat) :
    ∀ (A : Arena) (row col : Int), ¬ A.outOfBounds row col →
      (Arena.moveRobotLoop robot d n A row col).1.rows = A.rows ∧
      (Arena.moveRobotLoop robot d n A row col).1.cols = A.cols ∧
      ((Arena.moveRobotLoop robot d n A row col).1.heap robot).get_current_location
        = (A.heap robot).get_current_location ∧
      ∀ pos : Int × Int, (Arena.moveRobotLoop robot d n A row col).2 = some pos →
        ¬ A.outOfBounds pos.1 pos.2 ∧
          pos = (Arena.moveRobotTrail robot d n A row col).getLastD (row, col) := by
  induction n with
  | zero =>
    intro A row col hin
    refine ⟨rfl, rfl, rfl, ?_⟩
    intro pos hpos
    simp only [Arena.moveRobotLoop, Option.some.injEq] at hpos
    subst hpos
    exact ⟨hin, rfl⟩
  | succ n ih =>
    intro A row col hin
    rcases moveRobotLoop_step robot d n A row col with
      ⟨htrail, hA, hpos⟩ | ⟨B, hnext, _, hrows, hcols, hloc, htrail, hloop⟩
    · rw [hA, htrail]
      refine ⟨rfl, rfl, rfl, ?_⟩
      intro pos hp
      rcases hpos with hnone | hsome
      · rw [hnone] at hp
        cases hp
      · rw [hsome] at hp
        simp only [Option.some.injEq] at hp
        subst hp
        exact ⟨hin, rfl⟩
    · have hinB : ¬ B.outOfBounds (A.getNextCell row col d).1 (A.getNextCell row col d).2 :=
        fun h => hnext ((outOfBounds_congr A B hrows hcols _ _).mp h)
      obtain ⟨h1, h2, h3, h4⟩ := ih B _ _ hinB
      rw [hloop, htrail]
      refine ⟨h1.trans hrows, h2.trans hcols, h3.trans hloc, ?_⟩
      intro pos hp
      obtain ⟨h5, h6⟩ := h4 pos hp
      refine ⟨fun h => h5 ((outOfBounds_congr A B hrows hcols _ _).mpr h), ?_⟩
      rw [h6, List.getLastD_cons]

theorem moveRobotLoop_trail (robot : RobotPtr) (d : Int) (n : Nat) :
    ∀ (A : Arena) (row col : Int),
      (∀ X ∈ ((row, col) :: Arena.moveRobotTrail robot d n A row col).dropLast,
        X ≠ (Arena.moveRobotTrail robot d n A row col).getLastD (row, col) →
        ((Arena.moveRobotLoop robot d n A row col).1.grid X.1 X.2).type = CellType.EMPTY) ∧
      (∀ X : Int × Int, (A.grid X.1 X.2).type = CellType.EMPTY →
        X ≠ (Arena.moveRobotTrail robot d n A row col).getLastD (row, col) →
        ((Arena.moveRobotLoop robot d n A row col).1.grid X.1 X.2).type = CellType.EMPTY) := by
  induction n with
  | zero =>
    intro A row col
    refine ⟨?_, ?_⟩
    · intro X hX
      simp [Arena.moveRobotTrail] at hX
    · intro X hX _
      exact hX
  | succ n ih =>
    intro A row col
    rcases moveRobotLoop_step robot d n A row col with
      ⟨htrail, hA, _⟩ | ⟨B, _, hgrid, _, _, _, htrail, hloop⟩
    · rw [hA, htrail]
      refine ⟨?_, ?_⟩
      · intro X hX
        simp at hX
      · intro X hX _
        exact hX
    · obtain ⟨ih1, ih2⟩ := ih B (A.getNextCell row col d).1 (A.getNextCell row col d).2
      rw [hloop, htrail, List.getLastD_cons]
      generalize hT : Arena.moveRobotTrail robot d n B (A.getNextCell row col d).1
        (A.getNextCell row col d).2 = T at ih1 ih2
      generalize hnx : A.getNextCell row col d = nx at ih1 ih2 hgrid
      have hB : ∀ X : Int × Int, X ≠ (nx.1, nx.2) →
          (X = (row, col) ∨ (A.grid X.1 X.2).type = CellType.EMPTY) →
          (B.grid X.1 X.2).type = CellType.EMPTY := by
        intro X hne hX
        rw [hgrid, stepInto_type]
        have h1 : ¬ (X.1 = nx.1 ∧ X.2 = nx.2) := fun h => hne (Prod.ext h.1 h.2)
        rw [if_neg h1]
        split_ifs with h2
        · rfl
        · rcases hX with hX | hX
          · exact absurd ⟨congrArg Prod.fst hX, congrArg Prod.snd hX⟩ h2
          · exact hX
      have hfirst : ∀ X : Int × Int, X = (nx.1, nx.2) → X ≠ T.getLastD (nx.1, nx.2) →
          X ∈ ((nx.1, nx.2) :: T).dropLast := by
        intro X hX hne
        cases T with
        | nil => exact absurd hX hne
        | cons t ts =>
          rw [hX]
          simp
      have hall : ∀ X : Int × Int, X ≠ T.getLastD (nx.1, nx.2) →
          (X = (row, col) ∨ (A.grid X.1 X.2).type = CellType.EMPTY) →
          ((Arena.moveRobotLoop robot d n B nx.1 nx.2).1.grid X.1 X.2).type
            = CellType.EMPTY := by
        intro X hne hX
        by_cases hXn : X = (nx.1, nx.2)
        · exact ih1 X (hfirst X hXn hne) hne
        · exact ih2 X (hB X hXn hX) hne
      refine ⟨?_, ?_⟩
      · intro X hX hne
        rw [List.dropLast_cons₂, List.mem_cons] at hX
        rcases hX with hX | hX
        · exact hall X hne (Or.inl hX)
        · exact ih1 X hX hne
      · intro X hX hne
        exact hall X hne (Or.inr hX)

theorem moveRobot_grid (A : Arena) (robot : RobotPtr) (d distance : Int) :
    (A.moveRobot robot d distance).grid
      = (Arena.moveRobotLoop robot d distance.toNat A (A.heap robot).get_current_location.1
          (A.heap robot).get_current_location.2).1.grid := by
  unfold Arena.moveRobot
  split
  · rename_i h
    rw [h]
    rfl
  · rename_i h
    rw [h]

theorem moveRobot_recorded_in_bounds (A : Arena) (robot : RobotPtr) (d distance : Int)
    (hin : ¬ A.outOfBounds (A.heap robot).get_current_location.1
      (A.heap robot).get_current_location.2) :
    ¬ (A.moveRobot robot d distance).outOfBounds
      ((A.moveRobot robot d distance).heap robot).get_current_location.1
      ((A.moveRobot robot d distance).heap robot).get_current_location.2 := by
  obtain ⟨hrows, hcols, hloc, hpos⟩ := moveRobotLoop_frame robot d distance.toNat A _ _ hin
  unfold Arena.moveRobot
  split
  · rename_i A1 row col h
    rw [h] at hrows hcols hpos
    have h1 := (hpos (row, col) rfl).1
    intro hout
    apply h1
    refine (outOfBounds_congr A (A1.updRobot robot (RobotBase.move_to row col)) hrows hcols
      _ _).mp ?_
    simpa [Arena.updRobot, RobotBase.move_to, RobotBase.get_current_location] using hout
  · rename_i A1 h
    rw [h] at hrows hcols hloc
    simp only at hloc
    rw [hloc]
    exact fun hout => hin ((outOfBounds_congr A A1 hrows hcols _ _).mp hout)

theorem moveRobotLoop_blocked (robot : RobotPtr) (d : Int) (n : Nat) (B : Arena)
    (row col : Int)
    (hin : ¬ B.outOfBounds (B.getNextCell row col d).1 (B.getNextCell row col d).2)
    (hty : (B.grid (B.getNextCell row col d).1 (B.getNextCell row col d).2).type
          = CellType.OBSTACLE_MOUND ∨
        (B.grid (B.getNextCell row col d).1 (B.getNextCell row col d).2).type
          = CellType.DEAD ∨
        (B.grid (B.getNextCell row col d).1 (B.getNextCell row col d).2).type
          = CellType.ROBOT) :
    Arena.moveRobotLoop robot d (n + 1) B row col = (B, some (row, col)) ∧
      Arena.moveRobotTrail robot d (n + 1) B row col = [] := by
  rcases hty with h | h | h <;>
    simp [Arena.moveRobotLoop, Arena.moveRobotTrail, hin, h]

theorem moveRobot_recorded_last (A : Arena) (robot : RobotPtr) (d distance : Int)
    (hin : ¬ A.outOfBounds (A.heap robot).get_current_location.1
      (A.heap robot).get_current_location.2)
    (pos : Int × Int)
    (h : (Arena.moveRobotLoop robot d distance.toNat A (A.heap robot).get_current_location.1
      (A.heap robot).get_current_location.2).2 = some pos) :
    ((A.moveRobot robot d distance).heap robot).get_current_location = pos ∧
      (A.movePath robot d distance).getLast? = some pos := by
  obtain ⟨_, _, _, hpos⟩ := moveRobotLoop_frame robot d distance.toNat A _ _ hin
  refine ⟨?_, ?_⟩
  · unfold Arena.moveRobot
    split
    · rename_i A1 row col hloop
      rw [hloop] at h
      simp only [Option.some.injEq] at h
      subst h
      simp [Arena.updRobot, RobotBase.move_to, RobotBase.get_current_location]
    · rename_i A1 hloop
      rw [hloop] at h
      cases h
  · rw [Arena.movePath, List.getLast?_cons, (hpos pos h).2, List.getLastD_eq_getLast?]

/-- C13: for a robot recorded at an in-bounds position, any direction and any distance:
after `moveRobot` the recorded position is inside the grid; every cell of the path that the
robot left (every cell it stood on but the last) has kind Empty unless it is the cell the
robot finally stands on; from any state of the step loop, a step whose neighbour is a
Mound, a Destroyed or an Occupied cell is not taken: the loop ends at once in the same
state, at the same position, whatever the number of steps left; and when the loop is left
by `break` or by exhausting the distance, the recorded position is the last cell of the
path. -/
theorem moveRobot_bounds_trail_blocked (A : Arena) (robot : RobotPtr) (d distance : Int)
    (hin : ¬ A.outOfBounds (A.heap robot).get_current_location.1
      (A.heap robot).get_current_location.2) :
    ¬ (A.moveRobot robot d distance).outOfBounds
        ((A.moveRobot robot d distance).heap robot).get_current_location.1
        ((A.moveRobot robot d distance).heap robot).get_current_location.2 ∧
      (∀ X ∈ (A.movePath robot d distance).dropLast,
        (A.movePath robot d distance).getLast? ≠ some X →
        ((A.moveRobot robot d distance).grid X.1 X.2).type = CellType.EMPTY) ∧
      (∀ (n : Nat) (B : Arena) (row col : Int),
        ¬ B.outOfBounds (B.getNextCell row col d).1 (B.getNextCell row col d).2 →
        ((B.grid (B.getNextCell row col d).1 (B.getNextCell row col d).2).type
            = CellType.OBSTACLE_MOUND ∨
          (B.grid (B.getNextCell row col d).1 (B.getNextCell row col d).2).type
            = CellType.DEAD ∨
          (B.grid (B.getNextCell row col d).1 (B.getNextCell row col d).2).type
            = CellType.ROBOT) →
        Arena.moveRobotLoop robot d (n + 1) B row col = (B, some (row, col)) ∧
          Arena.moveRobotTrail robot d (n + 1) B row col = []) ∧
      (∀ pos : Int × Int,
        (Arena.moveRobotLoop robot d distance.toNat A (A.heap robot).get_current_location.1
          (A.heap robot).get_current_location.2).2 = some pos →
        ((A.moveRobot robot d distance).heap robot).get_current_location = pos ∧
          (A.movePath robot d distance).getLast? = some pos) := by
  refine ⟨moveRobot_recorded_in_bounds A robot d distance hin, ?_,
    fun n B row col h1 h2 => moveRobotLoop_blocked robot d n B row col h1 h2,
    fun pos h => moveRobot_recorded_last A robot d distance hin pos h⟩
  intro X hX hlast
  rw [moveRobot_grid]
  refine (moveRobotLoop_trail robot d distance.toNat A _ _).1 X hX ?_
  intro h
  apply hlast
  rw [Arena.movePath, List.getLast?_cons, h, List.getLastD_eq_getLast?]

/-- C13, witness: robot 0 of `demoArena` moves north by 2, over the edge to `(4, 1)` and on to
`(3, 1)`; the two cells it left are Empty. -/
theorem moveRobot_bounds_trail_blocked_witness :
    demoArena.movePath 0 1 2 = [(0, 1), (4, 1), (3, 1)] ∧
      ¬ (demoArena.moveRobot 0 1 2).outOfBounds
        ((demoArena.moveRobot 0 1 2).heap 0).get_current_location.1
        ((demoArena.moveRobot 0 1 2).heap 0).get_current_location.2 ∧
      (∀ X ∈ (demoArena.movePath 0 1 2).dropLast,
        (demoArena.movePath 0 1 2).getLast? ≠ some X →
        ((demoArena.moveRobot 0 1 2).grid X.1 X.2).type = CellType.EMPTY) :=
  ⟨by decide, (moveRobot_bounds_trail_blocked demoArena 0 1 2 (by decide)).1,
    (moveRobot_bounds_trail_blocked demoArena 0 1 2 (by decide)).2.1⟩

/-! ### C20: a cast from an Occupied cell comes back to the caster -/

theorem simulateRadarLoop_reaches (A : Arena) (d : Int) (hd : 1 ≤ d ∧ d ≤ 8) (n : Nat) :
    ∀ (fuel : Nat) (row col : Int) (acc : List RadarObj),
      (0 ≤ row ∧ row < A.rows) → (0 ≤ col ∧ col < A.cols) → n + 1 ≤ fuel →
      (radarSwitch (A.grid (torusCell A.rows A.cols row col d (n + 1)).1
        (torusCell A.rows A.cols row col d (n + 1)).2).type).2 = true →
      ∃ tail, A.simulateRadarLoop d fuel row col acc = some (acc ++ tail) ∧
        tail.length ≤ n + 1 := by
  induction n with
  | zero =>
    intro fuel row col acc hr hc hfuel hblock
    obtain ⟨f, rfl⟩ : ∃ f, fuel = f + 1 := ⟨fuel - 1, by omega⟩
    have hnext := torusCell_one A row col d hr hc hd
    have hin := torusCell_inBounds A row col d 1 (by omega) (by omega)
    simp only [zero_add] at hblock
    refine ⟨[A.detectionAt (torusCell A.rows A.cols row col d 1).1
      (torusCell A.rows A.cols row col d 1).2], ?_, by simp⟩
    simp only [Arena.simulateRadarLoop, hnext, if_neg hin, hblock, if_true]
    rfl
  | succ n ih =>
    intro fuel row col acc hr hc hfuel hblock
    obtain ⟨f, rfl⟩ : ∃ f, fuel = f + 1 := ⟨fuel - 1, by omega⟩
    have hnext := torusCell_one A row col d hr hc hd
    have hin := torusCell_inBounds A row col d 1 (by omega) (by omega)
    by_cases hb : (radarSwitch (A.grid (torusCell A.rows A.cols row col d 1).1
        (torusCell A.rows A.cols row col d 1).2).type).2 = true
    · refine ⟨[A.detectionAt (torusCell A.rows A.cols row col d 1).1
        (torusCell A.rows A.cols row col d 1).2], ?_, by simp⟩
      simp only [Arena.simulateRadarLoop, hnext, if_neg hin, hb, if_true]
      rfl
    · have hin' := hin
      simp only [Arena.outOfBounds, not_or, not_lt, ge_iff_le, not_le] at hin'
      rw [← torusCell_succ] at hblock
      obtain ⟨tail, htail, hlen⟩ := ih f _ _
        (acc ++ [A.detectionAt (torusCell A.rows A.cols row col d 1).1
          (torusCell A.rows A.cols row col d 1).2])
        ⟨hin'.1, hin'.2.1⟩ ⟨hin'.2.2.1, hin'.2.2.2⟩ (by omega) hblock
      refine ⟨A.detectionAt (torusCell A.rows A.cols row col d 1).1
        (torusCell A.rows A.cols row col d 1).2 :: tail, ?_, by simp; omega⟩
      simp only [Arena.simulateRadarLoop, hnext, if_neg hin, hb]
      have hsame : A.simulateRadarLoop d f (torusCell A.rows A.cols row col d 1).1
          (torusCell A.rows A.cols row col d 1).2
          (acc ++ [A.detectionAt (torusCell A.rows A.cols row col d 1).1
            (torusCell A.rows A.cols row col d 1).2])
          = some (acc ++ A.detectionAt (torusCell A.rows A.cols row col d 1).1
              (torusCell A.rows A.cols row col d 1).2 :: tail) := by
        rw [htail]
        simp
      exact hsame

theorem simulateRadarLoop_mono (A : Arena) (d : Int) (fuel : Nat) :
    ∀ (row col : Int) (acc res : List RadarObj) (extra : Nat),
      A.simulateRadarLoop d fuel row col acc = some res →
      A.simulateRadarLoop d (fuel + extra) row col acc = some res := by
  induction fuel with
  | zero => intro row col acc res extra h; simp [Arena.simulateRadarLoop] at h
  | succ fuel ih =>
    intro row col acc res extra h
    have he : fuel + 1 + extra = (fuel + extra) + 1 := by omega
    rw [he]
    simp only [Arena.simulateRadarLoop] at h ⊢
    split_ifs at h ⊢ with h1 h2
    · exact h
    · exact h
    · exact ih _ _ _ _ _ h

theorem torusCell_period (rows cols row col d : Int) (hr : 0 ≤ row ∧ row < rows)
    (hc : 0 ≤ col ∧ col < cols) :
    torusCell rows cols row col d (Int.lcm rows cols) = (row, col) := by
  obtain ⟨q1, h1⟩ := Int.dvd_lcm_left (a := rows) (b := cols)
  obtain ⟨q2, h2⟩ := Int.dvd_lcm_right (a := rows) (b := cols)
  simp only [torusCell, Prod.mk.injEq]
  constructor
  · rw [h1, mul_assoc, Int.add_mul_emod_self_left]
    exact Int.emod_eq_of_lt hr.1 hr.2
  · rw [h2, mul_assoc, Int.add_mul_emod_self_left]
    exact Int.emod_eq_of_lt hc.1 hc.2

theorem lcm_pos_le_mul (rows cols : Int) (hr : 0 < rows) (hc : 0 < cols) :
    0 < Int.lcm rows cols ∧ ((Int.lcm rows cols : Nat) : Int) ≤ rows * cols := by
  have h1 : 0 < rows.natAbs := Int.natAbs_pos.mpr (ne_of_gt hr)
  have h2 : 0 < cols.natAbs := Int.natAbs_pos.mpr (ne_of_gt hc)
  refine ⟨Nat.lcm_pos h1 h2, ?_⟩
  have h3 : Int.lcm rows cols ≤ rows.natAbs * cols.natAbs := by
    unfold Int.lcm Nat.lcm
    exact Nat.div_le_self _ _
  have h4 : ((rows.natAbs * cols.natAbs : Nat) : Int) = rows * cols := by
    rw [Nat.cast_mul, Int.natAbs_of_nonneg (le_of_lt hr), Int.natAbs_of_nonneg (le_of_lt hc)]
  rw [← h4]
  exact_mod_cast h3

theorem kindGlyph_not_both (t : CellType) (h1 : (radarSwitch t).2 = false)
    (h2 : kindGlyph t = 'R' ∨ kindGlyph t = 'X' ∨ kindGlyph t = 'M') : False := by
  cases t <;> simp_all [radarSwitch, kindGlyph]

/-- C20: when the cell at the caster's recorded position is Occupied and the direction is in
1..8, `simulateRadar` returns the same list for every number of allowed iterations from
`lcm(rows, cols)` on; the list has at most `lcm(rows, cols)` detections, which is at most
`rows * cols`; and when no cell of the toroidal path other than the caster's own cell
blocks the ray, the last detection is the caster's own cell with glyph `R`. -/
theorem simulateRadar_returns_to_caster (A : Arena) (robot : RobotPtr) (d : Int)
    (hr : 0 ≤ (A.heap robot).m_location_row ∧ (A.heap robot).m_location_row < A.rows)
    (hc : 0 ≤ (A.heap robot).m_location_col ∧ (A.heap robot).m_location_col < A.cols)
    (hocc : (A.grid (A.heap robot).m_location_row (A.heap robot).m_location_col).type
      = CellType.ROBOT)
    (hd : 1 ≤ d ∧ d ≤ 8) :
    ∃ res : List RadarObj,
      (∀ fuel : Nat, Int.lcm A.rows A.cols ≤ fuel →
        A.simulateRadar robot d fuel = some res) ∧
      res.length ≤ Int.lcm A.rows A.cols ∧
      ((Int.lcm A.rows A.cols : Nat) : Int) ≤ A.rows * A.cols ∧
      ((∀ k : Nat,
          torusCell A.rows A.cols (A.heap robot).m_location_row
              (A.heap robot).m_location_col d k
            ≠ ((A.heap robot).m_location_row, (A.heap robot).m_location_col) →
          (radarSwitch (A.grid
            (torusCell A.rows A.cols (A.heap robot).m_location_row
              (A.heap robot).m_location_col d k).1
            (torusCell A.rows A.cols (A.heap robot).m_location_row
              (A.heap robot).m_location_col d k).2).type).2 = false) →
        res.getLast? = some ⟨'R', (A.heap robot).m_location_row,
          (A.heap robot).m_location_col⟩) := by
  obtain ⟨hpos, hle⟩ := lcm_pos_le_mul A.rows A.cols (by omega) (by omega)
  obtain ⟨n, hn⟩ : ∃ n, Int.lcm A.rows A.cols = n + 1 :=
    ⟨Int.lcm A.rows A.cols - 1, by omega⟩
  have hback := torusCell_period A.rows A.cols _ _ d hr hc
  have hblock : (radarSwitch (A.grid
      (torusCell A.rows A.cols (A.heap robot).m_location_row
        (A.heap robot).m_location_col d (n + 1)).1
      (torusCell A.rows A.cols (A.heap robot).m_location_row
        (A.heap robot).m_location_col d (n + 1)).2).type).2 = true := by
    rw [← hn, hback, hocc]
    rfl
  obtain ⟨res, hres, hlen⟩ :=
    simulateRadarLoop_reaches A d hd n (n + 1) _ _ [] hr hc (le_refl _) hblock
  rw [List.nil_append] at hres
  refine ⟨res, ?_, by omega, hle, ?_⟩
  · intro fuel hfuel
    have h := simulateRadarLoop_mono A d (n + 1) _ _ [] res (fuel - (n + 1)) hres
    have he : n + 1 + (fuel - (n + 1)) = fuel := by omega
    rw [he] at h
    exact h
  · intro hfree
    obtain ⟨tail, htail, hne, hdet⟩ :=
      simulateRadarLoop_detections A d hd (n + 1) _ _ [] res hr hc hres
    rw [List.nil_append] at htail
    subst htail
    have hlen1 : 0 < res.length := List.length_pos.mpr hne
    rw [List.getLast?_eq_getElem?]
    obtain ⟨o, ho⟩ : ∃ o, res[res.length - 1]? = some o :=
      ⟨res[res.length - 1], List.getElem?_eq_getElem (by omega)⟩
    obtain ⟨h1, h2, _, h4⟩ := hdet (res.length - 1) o ho
    have hblk := h4 (by omega)
    have hat : torusCell A.rows A.cols (A.heap robot).m_location_row
        (A.heap robot).m_location_col d (res.length - 1 + 1)
        = ((A.heap robot).m_location_row, (A.heap robot).m_location_col) := by
      by_contra hne'
      have hpass := hfree _ hne'
      rw [← h1] at hpass
      simp only at hpass
      rw [h2] at hblk
      exact kindGlyph_not_both _ hpass hblk
    rw [hat] at h1
    simp only [Prod.mk.injEq] at h1
    rw [ho]
    obtain ⟨t, r, c⟩ := o
    simp only at h1 h2
    obtain ⟨rfl, rfl⟩ := h1
    rw [hocc] at h2
    simp only [h2, kindGlyph]

/-- C20, witness: robot 0 of `demoArena` looks north from `(0, 1)`: column 1 holds a
flamethrower and otherwise empty cells, so the fifth detection is robot 0 itself. -/
theorem simulateRadar_returns_to_caster_witness :
    demoArena.simulateRadar 0 1 40
        = some [⟨'.', 4, 1⟩, ⟨'.', 3, 1⟩, ⟨'.', 2, 1⟩, ⟨'F', 1, 1⟩, ⟨'R', 0, 1⟩] ∧
      ∃ res : List RadarObj,
        (∀ fuel : Nat, Int.lcm demoArena.rows demoArena.cols ≤ fuel →
          demoArena.simulateRadar 0 1 fuel = some res) ∧
        res.length ≤ Int.lcm demoArena.rows demoArena.cols :=
  ⟨by decide,
    (simulateRadar_returns_to_caster demoArena 0 1 (by decide) (by decide) (by decide)
      (by decide)).imp fun _ h => ⟨h.1, h.2.1⟩⟩

/-! ### C14: the progress flag of a round -/

set_option maxRecDepth 100000 in
/-- C14, the code at the failing input: in `standoffArena` robot 0 fires its Railgun at the
row of robot 1 and nobody moves.  After the turns of the round the health of robot 1 is 81
instead of the 100 of the start of the round, both robots are where they were, and the
`progress` flag computed for the round is false: the stagnation counter goes up to 1. -/
theorem battleRound_damage_is_not_progress :
    (standoffArena.heap 1).get_health = 100 ∧
      (battleRound standoffPlans 10
          { arena := standoffArena, round := 0, stagnationCounter := 0 }).map
        (fun r => (r.1.arena.heap 1).get_health) = some 81 ∧
      (battleRound standoffPlans 10
          { arena := standoffArena, round := 0, stagnationCounter := 0 }).map
        (fun r => (r.1.arena.heap 0).get_current_location) = some (0, 1) ∧
      (battleRound standoffPlans 10
          { arena := standoffArena, round := 0, stagnationCounter := 0 }).map
        (fun r => (r.1.arena.heap 1).get_current_location) = some (1, 4) ∧
      (battleRound standoffPlans 10
          { arena := standoffArena, round := 0, stagnationCounter := 0 }).map
        (fun r => r.2) = some false ∧
      (battleRound standoffPlans 10
          { arena := standoffArena, round := 0, stagnationCounter := 0 }).map
        (fun r => r.1.stagnationCounter) = some 1 := by
  decide

/-! ### C17: the sweep -/

theorem sweepLoop_spec (rest : List RobotPtr) :
    ∀ (kept : List RobotPtr) (A : Arena), A.robots = kept ++ rest →
      (Arena.sweepLoop rest kept A).robots
          = kept ++ rest.filter (fun p => decide (0 < (A.heap p).get_health)) ∧
        (Arena.sweepLoop rest kept A).heap = A.heap ∧
        (∀ p ∈ rest, (A.heap p).get_health ≤ 0 →
          ((Arena.sweepLoop rest kept A).grid (A.heap p).get_current_location.1
              (A.heap p).get_current_location.2).type = CellType.DEAD ∧
            ((Arena.sweepLoop rest kept A).grid (A.heap p).get_current_location.1
              (A.heap p).get_current_location.2).robot = none) ∧
        (∀ r c : Int, (A.grid r c).type = CellType.DEAD ∧ (A.grid r c).robot = none →
          ((Arena.sweepLoop rest kept A).grid r c).type = CellType.DEAD ∧
            ((Arena.sweepLoop rest kept A).grid r c).robot = none) := by
  induction rest with
  | nil =>
    intro kept A hA
    refine ⟨by simpa [Arena.sweepLoop] using hA, rfl, ?_, fun r c h => h⟩
    intro p hp
    simp at hp
  | cons q rest ih =>
    intro kept A hA
    by_cases hq : (A.heap q).get_health ≤ 0
    · -- the robot at the iterator is destroyed
      have hstep : Arena.sweepLoop (q :: rest) kept A
          = Arena.sweepLoop rest kept
              { A.setCell (A.heap q).get_current_location.1 (A.heap q).get_current_location.2
                  { A.grid (A.heap q).get_current_location.1
                      (A.heap q).get_current_location.2 with
                    type := CellType.DEAD
                    specialChar := String.singleton (paletteAt
                      (A.get_robot_index (A.heap q).get_current_location.1
                        (A.heap q).get_current_location.2))
                    robot := none } with
                robots := kept ++ rest } := by
        simp only [Arena.sweepLoop, if_pos hq]
      rw [hstep]
      obtain ⟨h1, h2, h3, h4⟩ := ih kept _ (rfl :
        ({ A.setCell (A.heap q).get_current_location.1 (A.heap q).get_current_location.2
            { A.grid (A.heap q).get_current_location.1
                (A.heap q).get_current_location.2 with
              type := CellType.DEAD
              specialChar := String.singleton (paletteAt
                (A.get_robot_index (A.heap q).get_current_location.1
                  (A.heap q).get_current_location.2))
              robot := none } with
          robots := kept ++ rest } : Arena).robots = kept ++ rest)
      have hkeep : ∀ r c : Int,
          ((r = (A.heap q).get_current_location.1 ∧ c = (A.heap q).get_current_location.2) ∨
            ((A.grid r c).type = CellType.DEAD ∧ (A.grid r c).robot = none)) →
          (({ A.setCell (A.heap q).get_current_location.1 (A.heap q).get_current_location.2
            { A.grid (A.heap q).get_current_location.1
                (A.heap q).get_current_location.2 with
              type := CellType.DEAD
              specialChar := String.singleton (paletteAt
                (A.get_robot_index (A.heap q).get_current_location.1
                  (A.heap q).get_current_location.2))
              robot := none } with
            robots := kept ++ rest } : Arena).grid r c).type = CellType.DEAD ∧
          (({ A.setCell (A.heap q).get_current_location.1 (A.heap q).get_current_location.2
            { A.grid (A.heap q).get_current_location.1
                (A.heap q).get_current_location.2 with
              type := CellType.DEAD
              specialChar := String.singleton (paletteAt
                (A.get_robot_index (A.heap q).get_current_location.1
                  (A.heap q).get_current_location.2))
              robot := none } with
            robots := kept ++ rest } : Arena).grid r c).robot = none := by
        intro r c h
        simp only [Arena.setCell]
        split_ifs with heq
        · exact ⟨rfl, rfl⟩
        · rcases h with h | h
          · exact absurd h heq
          · exact h
      refine ⟨?_, h2, ?_, ?_⟩
      · rw [h1]
        have hq' : ¬ 0 < (A.heap q).get_health := by omega
        simp [List.filter_cons, hq']
        rfl
      · intro p hp hdead
        rcases List.mem_cons.mp hp with rfl | hp
        · exact h4 _ _ (hkeep _ _ (Or.inl ⟨rfl, rfl⟩))
        · exact h3 p hp hdead
      · intro r c h
        exact h4 r c (hkeep r c (Or.inr h))
    · -- the robot at the iterator stays
      have hstep : Arena.sweepLoop (q :: rest) kept A = Arena.sweepLoop rest (kept ++ [q]) A := by
        simp only [Arena.sweepLoop, if_neg hq]
      rw [hstep]
      obtain ⟨h1, h2, h3, h4⟩ := ih (kept ++ [q]) A (by simp [hA])
      refine ⟨?_, h2, ?_, h4⟩
      · rw [h1]
        have hq' : 0 < (A.heap q).get_health := by omega
        simp [List.filter_cons, hq']
      · intro p hp hdead
        rcases List.mem_cons.mp hp with rfl | hp
        · exact absurd hdead hq
        · exact h3 p hp hdead

/-- C17: the sweep leaves exactly the robots of the roster with health above 0, in their
original order; it changes no robot object; and for every robot it removed, the cell at the
robot's recorded position has kind Destroyed and holds no reference. -/
theorem sweep_keeps_the_living (A : Arena) :
    A.sweep.robots = A.robots.filter (fun p => decide (0 < (A.heap p).get_health)) ∧
      A.sweep.heap = A.heap ∧
      ∀ p ∈ A.robots, (A.heap p).get_health ≤ 0 →
        (A.sweep.grid (A.heap p).get_current_location.1
            (A.heap p).get_current_location.2).type = CellType.DEAD ∧
          (A.sweep.grid (A.heap p).get_current_location.1
            (A.heap p).get_current_location.2).robot = none := by
  obtain ⟨h1, h2, h3, _⟩ := sweepLoop_spec A.robots [] A rfl
  exact ⟨by simpa using h1, h2, h3⟩

/-- C17, witness: robot 1 of `demoArena` has been destroyed by a hit; the sweep keeps robot 0
and marks the recorded cell of robot 1. -/
theorem sweep_keeps_the_living_witness :
    (demoArena.applyDamageToCell 0 4 50).sweep.robots = [0] ∧
      ((demoArena.applyDamageToCell 0 4 50).sweep.grid
          ((demoArena.applyDamageToCell 0 4 50).heap 1).get_current_location.1
          ((demoArena.applyDamageToCell 0 4 50).heap 1).get_current_location.2).type
        = CellType.DEAD :=
  ⟨by decide,
    ((sweep_keeps_the_living (demoArena.applyDamageToCell 0 4 50)).2.2 1 (by decide)
      (by decide)).1⟩

/-! ### C16 and C15: the counters and the end of a match -/

theorem battleRound_counters (plans : Nat → RobotPtr → TurnPlan) (fuel : Nat)
    (s s1 : BattleState) (progress : Bool)
    (h : battleRound plans fuel s = some (s1, progress)) :
    s1.round = s.round + 1 ∧
      s1.stagnationCounter = if progress then 0 else s.stagnationCounter + 1 := by
  unfold battleRound at h
  split at h
  · cases h
  · simp only [Option.some.injEq, Prod.mk.injEq] at h
    obtain ⟨h1, h2⟩ := h
    subst h1
    subst h2
    exact ⟨rfl, rfl⟩

theorem battleLoop_cases (plans : Nat → RobotPtr → TurnPlan) (fuel : Nat) (n : Nat)
    (s s' : BattleState) (a : Option Announcement)
    (h : battleLoop plans fuel (n + 1) s = BattleRun.finished s' a) :
    (¬ s.guard ∧ s.afterLoop = BattleRun.finished s' a) ∨
      (s.guard ∧ ∃ s1 progress, battleRound plans fuel s = some (s1, progress) ∧
        ((∃ p, s1.arena.robots = [p] ∧ s' = s1 ∧ a = some (Announcement.winner p)) ∨
          (s1.arena.robots.length ≠ 1 ∧
            battleLoop plans fuel n s1 = BattleRun.finished s' a))) := by
  unfold battleLoop at h
  by_cases hg : s.guard
  · right
    rw [if_pos hg] at h
    refine ⟨hg, ?_⟩
    cases hr : battleRound plans fuel s with
    | none => rw [hr] at h; cases h
    | some r =>
      obtain ⟨s1, progress⟩ := r
      rw [hr] at h
      refine ⟨s1, progress, rfl, ?_⟩
      simp only at h
      cases hrob : s1.arena.robots with
      | nil =>
        rw [hrob] at h
        right
        exact ⟨by simp, h⟩
      | cons p rest =>
        cases rest with
        | nil =>
          rw [hrob] at h
          left
          simp only [BattleRun.finished.injEq] at h
          exact ⟨p, rfl, h.1.symm, h.2.symm⟩
        | cons q rest =>
          rw [hrob] at h
          right
          exact ⟨by simp, h⟩
  · left
    rw [if_neg hg] at h
    exact ⟨hg, h⟩

theorem afterLoop_finished (s s' : BattleState) (a : Option Announcement)
    (h : s.afterLoop = BattleRun.finished s' a) :
    s' = s ∧ a = if s.arena.robots.length > 1 then some Announcement.draw else none := by
  unfold BattleState.afterLoop at h
  split_ifs at h with hl
  · simp only [BattleRun.finished.injEq] at h
    rw [if_pos hl]
    exact ⟨h.1.symm, h.2.symm⟩
  · simp only [BattleRun.finished.injEq] at h
    rw [if_neg hl]
    exact ⟨h.1.symm, h.2.symm⟩

theorem battleLoop_zero (plans : Nat → RobotPtr → TurnPlan) (fuel : Nat)
    (s s' : BattleState) (a : Option Announcement)
    (h : battleLoop plans fuel 0 s = BattleRun.finished s' a) :
    ¬ s.guard ∧ s.afterLoop = BattleRun.finished s' a := by
  unfold battleLoop at h
  by_cases hg : s.guard
  · rw [if_pos hg] at h
    cases h
  · rw [if_neg hg] at h
    exact ⟨hg, h⟩

theorem battleLoop_bounds (plans : Nat → RobotPtr → TurnPlan) (fuel : Nat) (n : Nat) :
    ∀ (s s' : BattleState) (a : Option Announcement),
      (0 ≤ s.round ∧ s.round ≤ 10000) → (0 ≤ s.stagnationCounter ∧ s.stagnationCounter ≤ 100) →
      battleLoop plans fuel n s = BattleRun.finished s' a →
      (0 ≤ s'.round ∧ s'.round ≤ 10000) ∧
        (0 ≤ s'.stagnationCounter ∧ s'.stagnationCounter ≤ 100) := by
  induction n with
  | zero =>
    intro s s' a hr hs h
    obtain ⟨_, h2⟩ := battleLoop_zero plans fuel s s' a h
    obtain ⟨rfl, _⟩ := afterLoop_finished s s' a h2
    exact ⟨hr, hs⟩
  | succ n ih =>
    intro s s' a hr hs h
    rcases battleLoop_cases plans fuel n s s' a h with
      ⟨_, h2⟩ | ⟨hg, s1, progress, hround, hrest⟩
    · obtain ⟨rfl, _⟩ := afterLoop_finished s s' a h2
      exact ⟨hr, hs⟩
    · obtain ⟨h1, h2⟩ := battleRound_counters plans fuel s s1 progress hround
      obtain ⟨_, hg2, hg3⟩ := hg
      have hr1 : 0 ≤ s1.round ∧ s1.round ≤ 10000 := by omega
      have hs1 : 0 ≤ s1.stagnationCounter ∧ s1.stagnationCounter ≤ 100 := by
        rw [h2]
        split_ifs <;> omega
      rcases hrest with ⟨p, _, rfl, _⟩ | ⟨_, hloop⟩
      · exact ⟨hr1, hs1⟩
      · exact ih s1 s' a hr1 hs1 hloop

theorem battleLoop_enough (plans : Nat → RobotPtr → TurnPlan) (fuel : Nat) (n : Nat) :
    ∀ s : BattleState, 10000 ≤ s.round + n →
      battleLoop plans fuel n s ≠ BattleRun.unfinished := by
  induction n with
  | zero =>
    intro s hs h
    unfold battleLoop at h
    by_cases hg : s.guard
    · obtain ⟨_, _, hg3⟩ := hg
      simp only [Nat.cast_zero, add_zero] at hs
      omega
    · rw [if_neg hg] at h
      unfold BattleState.afterLoop at h
      split_ifs at h
  | succ n ih =>
    intro s hs h
    unfold battleLoop at h
    by_cases hg : s.guard
    · rw [if_pos hg] at h
      cases hr : battleRound plans fuel s with
      | none => rw [hr] at h; cases h
      | some r =>
        obtain ⟨s1, progress⟩ := r
        rw [hr] at h
        simp only at h
        obtain ⟨h1, _⟩ := battleRound_counters plans fuel s s1 progress hr
        have hs1 : 10000 ≤ s1.round + n := by
          rw [h1]
          push_cast at hs
          omega
        split at h
        · cases h
        · exact ih s1 hs1 h
    · rw [if_neg hg] at h
      unfold BattleState.afterLoop at h
      split_ifs at h

/-- C16: in every match, every executed round adds 1 to the round counter and leaves it at
most 10000, sets the stagnation counter to 0 after progress and to one more than before
otherwise, and leaves it at most 100; when `startBattle` returns both counters are within
these bounds; and 10000 iterations of the loop always suffice. -/
theorem startBattle_counters (A : Arena) (plans : Nat → RobotPtr → TurnPlan) (fuel : Nat) :
    (∀ (s s1 : BattleState) (progress : Bool), s.guard →
        battleRound plans fuel s = some (s1, progress) →
        s1.round = s.round + 1 ∧ s1.round ≤ 10000 ∧
          s1.stagnationCounter = (if progress then 0 else s.stagnationCounter + 1) ∧
          s1.stagnationCounter ≤ 100) ∧
      (∀ (s' : BattleState) (a : Option Announcement),
        A.startBattle plans fuel = BattleRun.finished s' a →
        (0 ≤ s'.round ∧ s'.round ≤ 10000) ∧
          (0 ≤ s'.stagnationCounter ∧ s'.stagnationCounter ≤ 100)) ∧
      A.startBattle plans fuel ≠ BattleRun.unfinished := by
  refine ⟨?_, ?_, ?_⟩
  · intro s s1 progress hg h
    obtain ⟨h1, h2⟩ := battleRound_counters plans fuel s s1 progress h
    obtain ⟨_, hg2, hg3⟩ := hg
    refine ⟨h1, by omega, h2, ?_⟩
    rw [h2]
    split_ifs <;> omega
  · intro s' a h
    exact battleLoop_bounds plans fuel 10000 _ s' a (by simp) (by simp) h
  · exact battleLoop_enough plans fuel 10000 _ (by simp)

set_option maxRecDepth 1000000 in
/-- C16, witness: the match of `standoffArena` ends with robot 0 as the winner. -/
theorem startBattle_counters_witness :
    (standoffArena.startBattle standoffPlans 10).announced
        = some (some (Announcement.winner 0)) ∧
      standoffArena.startBattle standoffPlans 10 ≠ BattleRun.unfinished :=
  ⟨by decide, (startBattle_counters standoffArena standoffPlans 10).2.2⟩

theorem afterLoop_outcome (s : BattleState)
    (hs : s.round = 0 ∨ s.arena.robots.length ≠ 1) (hg : ¬ s.guard) :
    (∀ p : RobotPtr,
        (if s.arena.robots.length > 1 then some Announcement.draw else none)
            = some (Announcement.winner p) ↔
          (s.arena.robots = [p] ∧ 0 < s.round)) ∧
      ((if s.arena.robots.length > 1 then some Announcement.draw else none)
          = some Announcement.draw ↔ 1 < s.arena.robots.length) ∧
      ((if s.arena.robots.length > 1 then some Announcement.draw else none)
          = some Announcement.draw →
        100 ≤ s.stagnationCounter ∨ 10000 ≤ s.round) ∧
      ((if s.arena.robots.length > 1 then some Announcement.draw else (none : Option Announcement))
          = none ↔
        (s.arena.robots = [] ∨ (s.arena.robots.length = 1 ∧ s.round = 0))) := by
  by_cases hl : s.arena.robots.length > 1
  · rw [if_pos hl]
    refine ⟨fun p => ⟨fun h => (by cases h), fun h => ?_⟩, ⟨fun _ => hl, fun _ => rfl⟩,
      fun _ => ?_, ⟨fun h => (by cases h), fun h => ?_⟩⟩
    · rw [h.1] at hl
      simp at hl
    · unfold BattleState.guard at hg
      omega
    · rcases h with h | h
      · rw [h] at hl
        simp at hl
      · omega
  · rw [if_neg hl]
    refine ⟨fun p => ⟨fun h => (by cases h), fun h => ?_⟩,
      ⟨fun h => (by cases h), fun h => absurd h hl⟩, fun h => (by cases h),
      ⟨fun _ => ?_, fun _ => rfl⟩⟩
    · rcases hs with hs | hs
      · omega
      · rw [h.1] at hs
        simp at hs
    · cases hrob : s.arena.robots with
      | nil => exact Or.inl rfl
      | cons p rest =>
        right
        rw [hrob] at hl hs
        simp only [List.length_cons] at hl hs ⊢
        refine ⟨by omega, ?_⟩
        rcases hs with hs | hs
        · exact hs
        · omega

theorem battleLoop_outcome (plans : Nat → RobotPtr → TurnPlan) (fuel : Nat) (n : Nat) :
    ∀ (s s' : BattleState) (a : Option Announcement),
      0 ≤ s.round → (s.round = 0 ∨ s.arena.robots.length ≠ 1) →
      battleLoop plans fuel n s = BattleRun.finished s' a →
      (∀ p : RobotPtr, a = some (Announcement.winner p) ↔
          (s'.arena.robots = [p] ∧ 0 < s'.round)) ∧
        (a = some Announcement.draw ↔ 1 < s'.arena.robots.length) ∧
        (a = some Announcement.draw →
          100 ≤ s'.stagnationCounter ∨ 10000 ≤ s'.round) ∧
        (a = none ↔
          (s'.arena.robots = [] ∨ (s'.arena.robots.length = 1 ∧ s'.round = 0))) := by
  induction n with
  | zero =>
    intro s s' a hr hs h
    obtain ⟨hg, h2⟩ := battleLoop_zero plans fuel s s' a h
    obtain ⟨rfl, rfl⟩ := afterLoop_finished s s' a h2
    exact afterLoop_outcome s' hs hg
  | succ n ih =>
    intro s s' a hr hs h
    rcases battleLoop_cases plans fuel n s s' a h with
      ⟨hg, h2⟩ | ⟨_, s1, progress, hround, hrest⟩
    · obtain ⟨rfl, rfl⟩ := afterLoop_finished s s' a h2
      exact afterLoop_outcome s' hs hg
    · obtain ⟨h1, _⟩ := battleRound_counters plans fuel s s1 progress hround
      rcases hrest with ⟨p, hp, rfl, rfl⟩ | ⟨hlen, hloop⟩
      · have hpos : 0 < s'.round := by omega
        refine ⟨fun q => ⟨fun h => ?_, fun h => ?_⟩, ⟨fun h => (by cases h), fun h => ?_⟩,
          fun h => (by cases h), ⟨fun h => (by cases h), fun h => ?_⟩⟩
        · simp only [Option.some.injEq, Announcement.winner.injEq] at h
          subst h
          exact ⟨hp, hpos⟩
        · rw [hp] at h
          simp only [List.cons.injEq, and_true] at h
          rw [h.1]
        · rw [hp] at h
          simp at h
        · rcases h with h | h
          · rw [hp] at h
            cases h
          · omega
      · exact ih s1 s' a (by omega) (Or.inr hlen) hloop

set_option maxRecDepth 1000000 in
/-- C15, counterexample: in `lastStandArena` the Railgun shot of robot 0 along its own row
destroys both robots; the sweep of round 0 leaves zero robots, `startBattle` returns after
one round, and nothing is announced: no draw by elimination. -/
theorem startBattle_no_draw_by_elimination :
    (lastStandArena.startBattle lastStandPlans 10).final.map (fun s => s.arena.robots)
        = some [] ∧
      (lastStandArena.startBattle lastStandPlans 10).final.map (fun s => s.round) = some 1 ∧
      (lastStandArena.startBattle lastStandPlans 10).announced = some none := by
  decide

/-- C15, amended: a match that ends announces at most one outcome.  Robot `p` is announced
as the winner exactly when the roster at the end is `[p]` and at least one round was played
(the sweep of the last round left exactly one robot); a draw is announced exactly when more
than one robot is left, and then the stagnation counter has reached 100 or the round counter
10000; nothing is announced exactly when the sweep left zero robots, or when the roster had
a single robot from the start and no round was played. -/
theorem startBattle_outcome (A : Arena) (plans : Nat → RobotPtr → TurnPlan) (fuel : Nat)
    (s' : BattleState) (a : Option Announcement)
    (h : A.startBattle plans fuel = BattleRun.finished s' a) :
    (∀ p : RobotPtr, a = some (Announcement.winner p) ↔
        (s'.arena.robots = [p] ∧ 0 < s'.round)) ∧
      (a = some Announcement.draw ↔ 1 < s'.arena.robots.length) ∧
      (a = some Announcement.draw →
        100 ≤ s'.stagnationCounter ∨ 10000 ≤ s'.round) ∧
      (a = none ↔
        (s'.arena.robots = [] ∨ (s'.arena.robots.length = 1 ∧ s'.round = 0))) :=
  battleLoop_outcome plans fuel 10000 _ s' a (le_refl _) (Or.inl rfl) h

set_option maxRecDepth 1000000 in
/-- C15, witness of the amended claim: the match of `standoffArena` returns with robot 0
announced as the winner, the roster `[0]` and a positive round counter. -/
theorem startBattle_outcome_witness :
    ((standoffArena.startBattle standoffPlans 10).finalOr
        { arena := standoffArena, round := 0, stagnationCounter := 0 }).arena.robots = [0] ∧
      0 < ((standoffArena.startBattle standoffPlans 10).finalOr
        { arena := standoffArena, round := 0, stagnationCounter := 0 }).round :=
  ((startBattle_outcome standoffArena standoffPlans 10
    ((standoffArena.startBattle standoffPlans 10).finalOr
      { arena := standoffArena, round := 0, stagnationCounter := 0 })
    (some (Announcement.winner 0)) (by rfl)).1 0).mp rfl

/-! ### C18: the glyph of a retired robot -/

set_option maxRecDepth 1000000 in
/-- C18, the code at the failing input: `lastStandArena` has the roster `[0, 1]`, so the
load-order index of robot 1 is 1 and its palette entry is `*`.  Both robots are destroyed in
round 0.  The sweep marks the cell of robot 0 with `^`, removes robot 0, and then finds
robot 1 at index 0 of the shortened roster: its cell `(0, 4)` is marked with `^` as well. -/
theorem sweep_reuses_glyph :
    lastStandArena.robots = [0, 1] ∧ paletteAt 0 = '^' ∧ paletteAt 1 = '*' ∧
      (lastStandArena.startBattle lastStandPlans 10).final.map (fun s => s.arena.grid 0 1)
        = some { type := CellType.DEAD, specialChar := "^", robot := none } ∧
      (lastStandArena.startBattle lastStandPlans 10).final.map (fun s => s.arena.grid 0 4)
        = some { type := CellType.DEAD, specialChar := "^", robot := none } := by
  decide

/-! ### C19: grid/roster consistency across a round -/

set_option maxRecDepth 1000000 in
/-- C19, the code at the failing input: `demoArena` is consistent.  In the round robot 0 does
nothing and robot 1 walks west by 2: it enters `(0, 3)` and is stopped by the pit.  After
the round (turns and sweep) robot 1 is still in the roster with 10 health, recorded at
`(0, 4)`, but that cell is Empty and `(0, 3)` is the Occupied cell that references it: the
state is not consistent. -/
theorem battleRound_breaks_consistency :
    demoArena.consistent ∧
      (battleRound pitWalkPlans 10
          { arena := demoArena, round := 0, stagnationCounter := 0 }).map
        (fun r => r.1.arena.robots) = some [0, 1] ∧
      (battleRound pitWalkPlans 10
          { arena := demoArena, round := 0, stagnationCounter := 0 }).map
        (fun r => (r.1.arena.heap 1).get_health) = some 10 ∧
      (battleRound pitWalkPlans 10
          { arena := demoArena, round := 0, stagnationCounter := 0 }).map
        (fun r => (r.1.arena.heap 1).get_current_location) = some (0, 4) ∧
      (battleRound pitWalkPlans 10
          { arena := demoArena, round := 0, stagnationCounter := 0 }).map
        (fun r => r.1.arena.grid 0 4) = some { type := CellType.EMPTY, robot := none } ∧
      (battleRound pitWalkPlans 10
          { arena := demoArena, round := 0, stagnationCounter := 0 }).map
        (fun r => r.1.arena.grid 0 3) = some { type := CellType.ROBOT, robot := some 1 } ∧
      (battleRound pitWalkPlans 10
          { arena := demoArena, round := 0, stagnationCounter := 0 }).map
        (fun r => decide r.1.arena.consistent) = some false := by
  decide

/-! ### C23: the target of `Robot_FireBoi` -/

theorem add_obstacle_target (s : Robot_FireBoi) (obj : RadarObj) :
    (s.add_obstacle obj).targetRow = s.targetRow ∧
      (s.add_obstacle obj).targetCol = s.targetCol ∧
      (s.add_obstacle obj).targetFound = s.targetFound := by
  unfold Robot_FireBoi.add_obstacle
  split_ifs <;> exact ⟨rfl, rfl, rfl⟩

theorem processLoop_keeps_stale_target (radar_results : List RadarObj) :
    ∀ (s : Robot_FireBoi) (closest_distance : Int), s.targetRow ≠ -1 →
      (Robot_FireBoi.processLoop radar_results s closest_distance).targetFound
          = s.targetFound ∧
        (Robot_FireBoi.processLoop radar_results s closest_distance).targetRow
          = s.targetRow := by
  induction radar_results with
  | nil => intro s _ _; exact ⟨rfl, rfl⟩
  | cons obj rest ih =>
    intro s closest_distance hrow
    obtain ⟨h1, _, h3⟩ := add_obstacle_target s obj
    have hcond : ¬ (obj.m_type = 'R' ∧ (s.add_obstacle obj).targetRow = -1 ∧
        (s.add_obstacle obj).targetCol = -1) := by
      rw [h1]
      exact fun h => hrow h.2.1
    simp only [Robot_FireBoi.processLoop, if_neg hcond]
    obtain ⟨h4, h5⟩ := ih (s.add_obstacle obj) closest_distance (by rw [h1]; exact hrow)
    exact ⟨h4.trans h3, h5.trans h1⟩

/-- Once `targetRow` holds a row other than -1, a call of `process_radar_results` finds no
target, whatever the radar results: `targetFound` is false and no shot is requested. -/
theorem process_radar_results_never_retargets (s : Robot_FireBoi)
    (radar_results : List RadarObj) (h : s.targetRow ≠ -1) :
    (s.process_radar_results radar_results).targetFound = false ∧
      (s.process_radar_results radar_results).targetRow = s.targetRow ∧
      (s.process_radar_results radar_results).get_shot_location = none := by
  obtain ⟨h1, h2⟩ := processLoop_keeps_stale_target radar_results
    { s with targetFound := false, targetCol := -1 } 2147483647 h
  refine ⟨h1, h2, ?_⟩
  unfold Robot_FireBoi.get_shot_location
  unfold Robot_FireBoi.process_radar_results
  rw [h1]
  rfl

/-- C23, the code at the failing input: a fresh `Robot_FireBoi` at `(0, 1)` receives radar
results with a robot at `(0, 4)` (Manhattan distance 3): the first call finds the target and
a shot at `(0, 4)` is requested.  The second call, with the same results, resets
`targetFound` and `targetCol` but leaves `targetRow` at 0, so the robot detection is not
taken as the target and no shot is requested. -/
theorem process_radar_results_second_call :
    (demoFireBoi.process_radar_results demoRadarFeed).get_shot_location = some (0, 4) ∧
      ((demoFireBoi.process_radar_results demoRadarFeed).process_radar_results
        demoRadarFeed).targetFound = false ∧
      ((demoFireBoi.process_radar_results demoRadarFeed).process_radar_results
        demoRadarFeed).targetRow = 0 ∧
      ((demoFireBoi.process_radar_results demoRadarFeed).process_radar_results
        demoRadarFeed).targetCol = -1 ∧
      ((demoFireBoi.process_radar_results demoRadarFeed).process_radar_results
        demoRadarFeed).get_shot_location = none := by
  decide

/-! ### C22: one shot or one move per turn -/

theorem applyDamageToCell_frame (A : Arena) (row col baseDamage : Int) :
    (A.applyDamageToCell row col baseDamage).rows = A.rows ∧
      (A.applyDamageToCell row col baseDamage).cols = A.cols ∧
      (∀ q : RobotPtr,
        ((A.applyDamageToCell row col baseDamage).heap q).get_current_location
          = (A.heap q).get_current_location) ∧
      (∀ r c : Int, ¬ (r = row ∧ c = col) →
        (A.applyDamageToCell row col baseDamage).grid r c = A.grid r c) := by
  unfold Arena.applyDamageToCell
  by_cases hout : A.outOfBounds row col
  · rw [if_pos hout]
    exact ⟨rfl, rfl, fun _ => rfl, fun _ _ _ => rfl⟩
  · rw [if_neg hout]
    cases hp : (A.grid row col).robot with
    | none => exact ⟨rfl, rfl, fun _ => rfl, fun _ _ _ => rfl⟩
    | some p =>
      by_cases hty : (A.grid row col).type = CellType.ROBOT
      · simp only [if_pos hty]
        have hloc : ∀ q : RobotPtr,
            (((A.updRobot p (RobotBase.take_damage
              (armorDamage baseDamage (A.heap p).get_armor))).updRobot p
                (RobotBase.reduce_armor 1)).heap q).get_current_location
              = (A.heap q).get_current_location := by
          intro q
          simp only [Arena.updRobot]
          split_ifs <;> rfl
        split_ifs with hh
        · refine ⟨rfl, rfl, hloc, ?_⟩
          intro r c hne
          simp only [Arena.setCell, Arena.updRobot, if_neg hne]
        · exact ⟨rfl, rfl, hloc, fun _ _ _ => rfl⟩
      · simp [hty]

theorem applyCalls_frame (calls : List ((Int × Int) × Int)) (r c : Int) :
    ∀ A : Arena, (∀ call ∈ calls, call.1 = (r, c) → A.outOfBounds r c) →
      (A.applyCalls calls).rows = A.rows ∧ (A.applyCalls calls).cols = A.cols ∧
        (∀ q : RobotPtr, ((A.applyCalls calls).heap q).get_current_location
          = (A.heap q).get_current_location) ∧
        (A.applyCalls calls).grid r c = A.grid r c := by
  induction calls with
  | nil => intro A _; exact ⟨rfl, rfl, fun _ => rfl, rfl⟩
  | cons call calls ih =>
    intro A h
    obtain ⟨h1, h2, h3, h4⟩ := applyDamageToCell_frame A call.1.1 call.1.2 call.2
    have hcell : (A.applyDamageToCell call.1.1 call.1.2 call.2).grid r c = A.grid r c := by
      by_cases heq : r = call.1.1 ∧ c = call.1.2
      · have hout := h call (List.mem_cons_self _ _) (Prod.ext heq.1.symm heq.2.symm)
        rw [heq.1, heq.2] at hout ⊢
        rw [applyDamageToCell_outOfBounds A _ _ _ hout]
      · exact h4 r c heq
    obtain ⟨h5, h6, h7, h8⟩ := ih (A.applyDamageToCell call.1.1 call.1.2 call.2) (by
      intro call' hmem heq
      have hout := h call' (List.mem_cons_of_mem _ hmem) heq
      exact (outOfBounds_congr A _ h1 h2 r c).mpr hout)
    refine ⟨?_, ?_, ?_, ?_⟩
    · exact h5.trans h1
    · exact h6.trans h2
    · intro q
      exact (h7 q).trans (h3 q)
    · exact h8.trans hcell

theorem shotCalls_off_footprint (A : Arena) (shooter : RobotPtr)
    (targetRow targetCol r c : Int)
    (hfoot : ¬ inFootprint (A.heap shooter).m_weapon (A.heap shooter).m_location_row
      (A.heap shooter).m_location_col targetRow targetCol r c) :
    ∀ call ∈ A.shotCalls shooter targetRow targetCol, call.1 = (r, c) →
      A.outOfBounds r c := by
  intro call hmem heq
  by_contra hin
  by_cases hne : targetRow = (A.heap shooter).m_location_row ∧
      targetCol = (A.heap shooter).m_location_col
  · simp [Arena.shotCalls, RobotBase.get_current_location, hne] at hmem
  · by_cases hout : A.outOfBounds targetRow targetCol
    · simp [Arena.shotCalls, RobotBase.get_current_location, hne, hout] at hmem
    · apply hfoot
      refine (shotCalls_mem A shooter targetRow targetCol r c hout hne hin).mp ?_
      rw [← heq]
      exact List.mem_map_of_mem Prod.fst hmem

theorem resolveShot_frame (A : Arena) (shooter : RobotPtr) (targetRow targetCol : Int) :
    (∀ q : RobotPtr, ((A.resolveShot shooter targetRow targetCol).heap q).get_current_location
        = (A.heap q).get_current_location) ∧
      (∀ r c : Int,
        ¬ inFootprint (A.heap shooter).m_weapon (A.heap shooter).m_location_row
          (A.heap shooter).m_location_col targetRow targetCol r c →
        (A.resolveShot shooter targetRow targetCol).grid r c = A.grid r c) := by
  rw [resolveShot_eq_applyCalls]
  refine ⟨?_, ?_⟩
  · intro q
    exact (applyCalls_frame (A.shotCalls shooter targetRow targetCol) (-1) (-1) A
      (fun _ _ _ => outOfBounds_neg_one A)).2.2.1 q
  · intro r c hfoot
    exact (applyCalls_frame (A.shotCalls shooter targetRow targetCol) r c A
      (shotCalls_off_footprint A shooter targetRow targetCol r c hfoot)).2.2.2

/-- C22: in a turn whose radar cast returns `res`, `simulateTurn` resolves a shot or makes a
move, never both.  When the strategy requests a shot at `t`, the turn is exactly
`resolveShot` at `t`: no robot's recorded position changes and every cell outside the
footprint of the shot is unchanged.  When no shot is requested, the turn leaves the state
as it is if the robot stands on a pit or the requested distance is not positive, and it is
exactly one call of `moveRobot` otherwise. -/
theorem simulateTurn_shot_or_move (A : Arena) (robot : RobotPtr) (plan : TurnPlan)
    (fuel : Nat) (res : List RadarObj)
    (hres : A.simulateRadar robot plan.radar_direction fuel = some res) :
    (∀ t : Int × Int, plan.shot_location res = some t →
        A.simulateTurn robot plan fuel = some (A.resolveShot robot t.1 t.2) ∧
          (∀ q : RobotPtr, ((A.resolveShot robot t.1 t.2).heap q).get_current_location
            = (A.heap q).get_current_location) ∧
          (∀ r c : Int,
            ¬ inFootprint (A.heap robot).m_weapon (A.heap robot).m_location_row
              (A.heap robot).m_location_col t.1 t.2 r c →
            (A.resolveShot robot t.1 t.2).grid r c = A.grid r c)) ∧
      (plan.shot_location res = none →
        (((A.grid (A.heap robot).get_current_location.1
              (A.heap robot).get_current_location.2).type = CellType.OBSTACLE_PIT ∨
            (plan.move_direction res).2 ≤ 0) →
          A.simulateTurn robot plan fuel = some A) ∧
        ((A.grid (A.heap robot).get_current_location.1
              (A.heap robot).get_current_location.2).type ≠ CellType.OBSTACLE_PIT →
          0 < (plan.move_direction res).2 →
          A.simulateTurn robot plan fuel
            = some (A.moveRobot robot (plan.move_direction res).1
                (plan.move_direction res).2))) := by
  refine ⟨?_, ?_⟩
  · intro t ht
    obtain ⟨h1, h2⟩ := resolveShot_frame A robot t.1 t.2
    refine ⟨?_, h1, h2⟩
    simp only [Arena.simulateTurn, hres, ht]
  · intro hnone
    refine ⟨?_, ?_⟩
    · intro h
      simp only [Arena.simulateTurn, hres, hnone]
      rcases h with h | h
      · rw [if_pos h]
      · split_ifs with h1 h2
        · rfl
        · omega
        · rfl
    · intro hpit hdist
      simp only [Arena.simulateTurn, hres, hnone]
      rw [if_neg hpit, if_pos hdist]

set_option maxRecDepth 100000 in
/-- C22, witness: robot 0 of `demoArena` requests a Railgun shot at `(0, 4)`; the turn is
that shot, and the cell `(1, 1)` outside row 0 is unchanged. -/
theorem simulateTurn_shot_or_move_witness :
    demoArena.simulateTurn 0 (shootPlan (0, 4)) 10 = some (demoArena.resolveShot 0 0 4) ∧
      (demoArena.resolveShot 0 0 4).grid 1 1 = demoArena.grid 1 1 :=
  ⟨((simulateTurn_shot_or_move demoArena 0 (shootPlan (0, 4)) 10
      [⟨'P', 0, 2⟩, ⟨'.', 0, 3⟩, ⟨'R', 0, 4⟩] (by decide)).1 (0, 4) rfl).1,
    ((simulateTurn_shot_or_move demoArena 0 (shootPlan (0, 4)) 10
      [⟨'P', 0, 2⟩, ⟨'.', 0, 3⟩, ⟨'R', 0, 4⟩] (by decide)).1 (0, 4) rfl).2.2 1 1
      (by decide)⟩

/-! ### C21: no robot is ever recorded on a pit -/

theorem setCell_pit (A : Arena) (row col r c : Int) (v : Cell)
    (hv : v.type ≠ CellType.OBSTACLE_PIT)
    (h : ((A.setCell row col v).grid r c).type = CellType.OBSTACLE_PIT) :
    (A.grid r c).type = CellType.OBSTACLE_PIT := by
  simp only [Arena.setCell] at h
  split_ifs at h with heq
  · exact absurd h hv
  · exact h

theorem applyDamageToCell_pit (A : Arena) (row col baseDamage r c : Int)
    (h : ((A.applyDamageToCell row col baseDamage).grid r c).type = CellType.OBSTACLE_PIT) :
    (A.grid r c).type = CellType.OBSTACLE_PIT := by
  unfold Arena.applyDamageToCell at h
  by_cases hout : A.outOfBounds row col
  · rw [if_pos hout] at h
    exact h
  · rw [if_neg hout] at h
    cases hp : (A.grid row col).robot with
    | none =>
      rw [hp] at h
      exact h
    | some p =>
      rw [hp] at h
      by_cases hty : (A.grid row col).type = CellType.ROBOT
      · simp only [if_pos hty] at h
        split_ifs at h with hh
        · exact setCell_pit _ row col r c _ (by simp) h
        · exact h
      · simp only [if_neg hty] at h
        exact h

theorem applyCalls_pit (calls : List ((Int × Int) × Int)) (r c : Int) :
    ∀ A : Arena, ((A.applyCalls calls).grid r c).type = CellType.OBSTACLE_PIT →
      (A.grid r c).type = CellType.OBSTACLE_PIT := by
  induction calls with
  | nil => intro A h; exact h
  | cons call calls ih =>
    intro A h
    exact applyDamageToCell_pit A _ _ _ r c (ih _ h)

theorem resolveShot_pit (A : Arena) (shooter : RobotPtr) (targetRow targetCol r c : Int)
    (h : ((A.resolveShot shooter targetRow targetCol).grid r c).type
      = CellType.OBSTACLE_PIT) :
    (A.grid r c).type = CellType.OBSTACLE_PIT := by
  rw [resolveShot_eq_applyCalls] at h
  exact applyCalls_pit _ r c A h

theorem applyCalls_robots (calls : List ((Int × Int) × Int)) :
    ∀ A : Arena, (A.applyCalls calls).robots = A.robots := by
  induction calls with
  | nil => intro A; rfl
  | cons call calls ih =>
    intro A
    have h1 : (A.applyDamageToCell call.1.1 call.1.2 call.2).robots = A.robots := by
      unfold Arena.applyDamageToCell
      by_cases hout : A.outOfBounds call.1.1 call.1.2
      · rw [if_pos hout]
      · rw [if_neg hout]
        cases hp : (A.grid call.1.1 call.1.2).robot with
        | none => rfl
        | some p =>
          by_cases hty : (A.grid call.1.1 call.1.2).type = CellType.ROBOT
          · simp only [if_pos hty]
            split_ifs <;> rfl
          · simp only [if_neg hty]
    exact (ih _).trans h1

theorem resolveShot_robots (A : Arena) (shooter : RobotPtr) (targetRow targetCol : Int) :
    (A.resolveShot shooter targetRow targetCol).robots = A.robots := by
  rw [resolveShot_eq_applyCalls]
  exact applyCalls_robots _ A

/-- One iteration of the loop of `moveRobot`, as far as the roster, the recorded positions
and the kinds of the cells are concerned. -/
theorem moveRobotLoop_step_heap (robot : RobotPtr) (d : Int) (n : Nat) (A : Arena)
    (row col : Int) :
    ((Arena.moveRobotLoop robot d (n + 1) A row col).1 = A ∧
        ((Arena.moveRobotLoop robot d (n + 1) A row col).2 = none ∨
          (Arena.moveRobotLoop robot d (n + 1) A row col).2 = some (row, col))) ∨
      (∃ B : Arena,
        B.grid = (A.stepInto robot row col (A.getNextCell row col d).1
          (A.getNextCell row col d).2).grid ∧
        B.robots = A.robots ∧
        (∀ q : RobotPtr, (B.heap q).get_current_location = (A.heap q).get_current_location) ∧
        Arena.moveRobotLoop robot d (n + 1) A row col
          = Arena.moveRobotLoop robot d n B (A.getNextCell row col d).1
              (A.getNextCell row col d).2) := by
  by_cases hout : A.outOfBounds (A.getNextCell row col d).1 (A.getNextCell row col d).2
  · left
    simp [Arena.moveRobotLoop, hout]
  · cases hty : (A.grid (A.getNextCell row col d).1 (A.getNextCell row col d).2).type with
    | EMPTY =>
      right
      refine ⟨A.stepInto robot row col (A.getNextCell row col d).1
        (A.getNextCell row col d).2, rfl, rfl, fun _ => rfl, ?_⟩
      simp [Arena.moveRobotLoop, hout, hty]
    | OBSTACLE_FLAMETHROWER =>
      right
      refine ⟨((A.rand).2.updRobot robot
          (RobotBase.take_damage ((30 : Int) + ((A.rand).1 % 21 : Nat)))).stepInto robot row col
          (A.getNextCell row col d).1 (A.getNextCell row col d).2, rfl, rfl, ?_, ?_⟩
      · intro q
        simp only [Arena.stepInto, Arena.setCell, Arena.updRobot, Arena.rand]
        split_ifs <;> rfl
      · simp only [Arena.moveRobotLoop, if_neg hout, hty]
    | OBSTACLE_PIT =>
      left
      simp [Arena.moveRobotLoop, hout, hty]
    | OBSTACLE_MOUND =>
      left
      simp [Arena.moveRobotLoop, hout, hty]
    | ROBOT =>
      left
      simp [Arena.moveRobotLoop, hout, hty]
    | DEAD =>
      left
      simp [Arena.moveRobotLoop, hout, hty]

theorem moveRobotLoop_pit_invariant (robot : RobotPtr) (d : Int) (n : Nat) :
    ∀ (A : Arena) (row col : Int),
      (Arena.moveRobotLoop robot d n A row col).1.robots = A.robots ∧
      (∀ q : RobotPtr,
        ((Arena.moveRobotLoop robot d n A row col).1.heap q).get_current_location
          = (A.heap q).get_current_location) ∧
      (∀ r c : Int,
        ((Arena.moveRobotLoop robot d n A row col).1.grid r c).type = CellType.OBSTACLE_PIT →
        (A.grid r c).type = CellType.OBSTACLE_PIT) ∧
      ((A.grid row col).type ≠ CellType.OBSTACLE_PIT →
        ∀ pos : Int × Int, (Arena.moveRobotLoop robot d n A row col).2 = some pos →
          ((Arena.moveRobotLoop robot d n A row col).1.grid pos.1 pos.2).type
            ≠ CellType.OBSTACLE_PIT) := by
  induction n with
  | zero =>
    intro A row col
    refine ⟨rfl, fun _ => rfl, fun _ _ h => h, ?_⟩
    intro hne pos hpos
    simp only [Arena.moveRobotLoop, Option.some.injEq] at hpos
    subst hpos
    exact hne
  | succ n ih =>
    intro A row col
    rcases moveRobotLoop_step_heap robot d n A row col with
      ⟨hA, hpos⟩ | ⟨B, hgrid, hrobots, hloc, hloop⟩
    · rw [hA]
      refine ⟨rfl, fun _ => rfl, fun _ _ h => h, ?_⟩
      intro hne pos hp
      rcases hpos with hnone | hsome
      · rw [hnone] at hp
        cases hp
      · rw [hsome] at hp
        simp only [Option.some.injEq] at hp
        subst hp
        exact hne
    · obtain ⟨h1, h2, h3, h4⟩ := ih B (A.getNextCell row col d).1 (A.getNextCell row col d).2
      rw [hloop]
      refine ⟨h1.trans hrobots, fun q => (h2 q).trans (hloc q), ?_, ?_⟩
      · intro r c h
        have hB := h3 r c h
        rw [hgrid, stepInto_type] at hB
        split_ifs at hB
        exact hB
      · intro _ pos hp
        refine h4 ?_ pos hp
        rw [hgrid, stepInto_type]
        simp

theorem moveRobot_noRobotOnPit (A : Arena) (robot : RobotPtr) (d distance : Int)
    (hrobot : robot ∈ A.robots) (h : A.noRobotOnPit) :
    (A.moveRobot robot d distance).robots = A.robots ∧
      (A.moveRobot robot d distance).noRobotOnPit := by
  obtain ⟨h1, h2, h3, h4⟩ := moveRobotLoop_pit_invariant robot d distance.toNat A
    (A.heap robot).get_current_location.1 (A.heap robot).get_current_location.2
  have h4' := h4 (h robot hrobot)
  unfold Arena.moveRobot
  split
  · rename_i A1 row col hloop
    rw [hloop] at h1 h2 h3 h4'
    simp only at h1 h2 h3 h4'
    refine ⟨h1, ?_⟩
    intro q hq
    have hq' : q ∈ A.robots := h1 ▸ hq
    by_cases hqr : q = robot
    · subst hqr
      have := h4' (row, col) rfl
      simpa [Arena.updRobot, RobotBase.move_to, RobotBase.get_current_location] using this
    · intro hpit
      have hheap : ((A1.updRobot robot (RobotBase.move_to row col)).heap q) = A1.heap q := by
        simp [Arena.updRobot, hqr]
      rw [hheap, h2 q] at hpit
      exact h q hq' (h3 _ _ hpit)
  · rename_i A1 hloop
    rw [hloop] at h1 h2 h3
    simp only at h1 h2 h3
    refine ⟨h1, ?_⟩
    intro q hq hpit
    rw [h2 q] at hpit
    exact h q (h1 ▸ hq) (h3 _ _ hpit)

theorem simulateTurn_noRobotOnPit (A A1 : Arena) (robot : RobotPtr) (plan : TurnPlan)
    (fuel : Nat) (hrobot : robot ∈ A.robots) (h : A.noRobotOnPit)
    (hturn : A.simulateTurn robot plan fuel = some A1) :
    A1.robots = A.robots ∧ A1.noRobotOnPit := by
  unfold Arena.simulateTurn at hturn
  cases hres : A.simulateRadar robot plan.radar_direction fuel with
  | none => rw [hres] at hturn; cases hturn
  | some res =>
    rw [hres] at hturn
    simp only at hturn
    cases hshot : plan.shot_location res with
    | some t =>
      rw [hshot] at hturn
      simp only [Option.some.injEq] at hturn
      subst hturn
      refine ⟨resolveShot_robots A robot t.1 t.2, ?_⟩
      intro q hq hpit
      rw [(resolveShot_frame A robot t.1 t.2).1 q] at hpit
      exact h q (resolveShot_robots A robot t.1 t.2 ▸ hq) (resolveShot_pit A robot _ _ _ _ hpit)
    | none =>
      rw [hshot] at hturn
      simp only at hturn
      split_ifs at hturn with h1 h2
      · simp only [Option.some.injEq] at hturn
        subst hturn
        exact ⟨rfl, h⟩
      · simp only [Option.some.injEq] at hturn
        subst hturn
        exact moveRobot_noRobotOnPit A robot _ _ hrobot h
      · simp only [Option.some.injEq] at hturn
        subst hturn
        exact ⟨rfl, h⟩

theorem sweepLoop_pit (rest : List RobotPtr) :
    ∀ (kept : List RobotPtr) (A : Arena) (r c : Int),
      ((Arena.sweepLoop rest kept A).grid r c).type = CellType.OBSTACLE_PIT →
      (A.grid r c).type = CellType.OBSTACLE_PIT := by
  induction rest with
  | nil => intro kept A r c h; exact h
  | cons q rest ih =>
    intro kept A r c h
    by_cases hq : (A.heap q).get_health ≤ 0
    · simp only [Arena.sweepLoop, if_pos hq] at h
      have h1 := ih _ _ r c h
      exact setCell_pit A _ _ r c _ (by simp) h1
    · simp only [Arena.sweepLoop, if_neg hq] at h
      exact ih _ _ r c h

theorem sweep_noRobotOnPit (A : Arena) (h : A.noRobotOnPit) : A.sweep.noRobotOnPit := by
  obtain ⟨h1, h2, _, _⟩ := sweepLoop_spec A.robots [] A rfl
  intro q hq hpit
  have hq' : q ∈ A.robots := by
    have : q ∈ A.sweep.robots := hq
    unfold Arena.sweep at this
    rw [h1] at this
    simp only [List.nil_append, List.mem_filter] at this
    exact this.1
  have hheap : A.sweep.heap = A.heap := h2
  rw [hheap] at hpit
  exact h q hq' (sweepLoop_pit A.robots [] A _ _ hpit)

theorem reachable_noRobotOnPit (A0 A : Arena) (h0 : A0.noRobotOnPit)
    (h : Arena.Reachable A0 A) : A.noRobotOnPit := by
  induction h with
  | start => exact h0
  | turn A A1 p plan fuel _ hp hturn ih =>
    exact (simulateTurn_noRobotOnPit A A1 p plan fuel hp ih hturn).2
  | sweep A _ ih => exact sweep_noRobotOnPit A ih

theorem placeObstaclesLoop_robots (n : Nat) :
    ∀ A : Arena, (Arena.placeObstaclesLoop n A).robots = A.robots := by
  induction n with
  | zero => intro A; rfl
  | succ n ih =>
    intro A
    simp only [Arena.placeObstaclesLoop]
    split_ifs
    · rw [ih]
      rfl
    · rw [ih]
      rfl

theorem placeRobot_noRobotOnPit (robot : RobotPtr) (fuel : Nat) :
    ∀ A A1 : Arena,
      (∀ q ∈ A.robots, q ≠ robot →
        (A.grid (A.heap q).get_current_location.1 (A.heap q).get_current_location.2).type
          ≠ CellType.OBSTACLE_PIT) →
      Arena.placeRobot robot fuel A = some A1 →
      A1.robots = A.robots ∧ A1.noRobotOnPit := by
  induction fuel with
  | zero => intro A A1 _ h; simp [Arena.placeRobot] at h
  | succ fuel ih =>
    intro A A1 hinv h
    simp only [Arena.placeRobot] at h
    split_ifs at h with hfull
    · exact ih ((A.rand).2.rand).2 A1 hinv h
    · simp only [Option.some.injEq] at h
      subst h
      refine ⟨rfl, ?_⟩
      intro q hq
      by_cases hqr : q = robot
      · subst hqr
        simp [Arena.updRobot, Arena.setCell, RobotBase.move_to,
          RobotBase.get_current_location]
      · have hq' : q ∈ A.robots := hq
        have hold := hinv q hq' hqr
        simp only [Arena.updRobot, Arena.setCell, if_neg hqr]
        split_ifs with hcell
        · simp
        · exact hold

theorem loadRobots_noRobotOnPit (fuel : Nat) (loaded : List (Option RobotPtr)) :
    ∀ A A0 : Arena, A.noRobotOnPit → Arena.loadRobots fuel loaded A = some A0 →
      A0.noRobotOnPit := by
  induction loaded with
  | nil =>
    intro A A0 hinv h
    simp only [Arena.loadRobots, Option.some.injEq] at h
    subst h
    exact hinv
  | cons x rest ih =>
    intro A A0 hinv h
    cases x with
    | none =>
      simp only [Arena.loadRobots] at h
      exact ih A A0 hinv h
    | some robot =>
      simp only [Arena.loadRobots] at h
      cases hplace : Arena.placeRobot robot fuel { A with robots := A.robots ++ [robot] } with
      | none => rw [hplace] at h; cases h
      | some A1 =>
        rw [hplace] at h
        simp only at h
        refine ih A1 A0 ?_ h
        refine (placeRobot_noRobotOnPit robot fuel _ A1 ?_ hplace).2
        intro q hq hqr
        have hq' : q ∈ A.robots := by
          simp only [List.mem_append, List.mem_singleton] at hq
          rcases hq with hq | hq
          · exact hq
          · exact absurd hq hqr
        exact hinv q hq'

theorem setup_noRobotOnPit (rows cols : Int) (heap : RobotPtr → RobotBase)
    (seed : Nat → Nat) (loaded : List (Option RobotPtr)) (fuel : Nat) (A0 : Arena)
    (h : Arena.setup rows cols heap seed loaded fuel = some A0) : A0.noRobotOnPit := by
  unfold Arena.setup at h
  refine loadRobots_noRobotOnPit fuel loaded _ A0 ?_ h
  intro q hq
  have hrob : (Arena.create rows cols heap seed).placeObstacles.robots = [] := by
    unfold Arena.placeObstacles
    rw [placeObstaclesLoop_robots]
    rfl
  rw [hrob] at hq
  cases hq

theorem simulateTurn_eq_noPit (A : Arena) (robot : RobotPtr) (plan : TurnPlan) (fuel : Nat)
    (h : (A.grid (A.heap robot).get_current_location.1
      (A.heap robot).get_current_location.2).type ≠ CellType.OBSTACLE_PIT) :
    A.simulateTurn robot plan fuel = A.simulateTurnNoPit robot plan fuel := by
  unfold Arena.simulateTurn Arena.simulateTurnNoPit
  simp only [if_neg h]

theorem moveRobot_robots (A : Arena) (robot : RobotPtr) (d distance : Int) :
    (A.moveRobot robot d distance).robots = A.robots := by
  have h1 := (moveRobotLoop_pit_invariant robot d distance.toNat A
    (A.heap robot).get_current_location.1 (A.heap robot).get_current_location.2).1
  unfold Arena.moveRobot
  split
  · rename_i A1 row col hloop
    rw [hloop] at h1
    exact h1
  · rename_i A1 hloop
    rw [hloop] at h1
    exact h1

theorem simulateTurn_robots (A A1 : Arena) (robot : RobotPtr) (plan : TurnPlan) (fuel : Nat)
    (hturn : A.simulateTurn robot plan fuel = some A1) : A1.robots = A.robots := by
  unfold Arena.simulateTurn at hturn
  cases hres : A.simulateRadar robot plan.radar_direction fuel with
  | none => rw [hres] at hturn; cases hturn
  | some res =>
    rw [hres] at hturn
    simp only at hturn
    cases hshot : plan.shot_location res with
    | some t =>
      rw [hshot] at hturn
      simp only [Option.some.injEq] at hturn
      subst hturn
      exact resolveShot_robots A robot t.1 t.2
    | none =>
      rw [hshot] at hturn
      simp only at hturn
      split_ifs at hturn with h1 h2
      · simp only [Option.some.injEq] at hturn
        subst hturn
        rfl
      · simp only [Option.some.injEq] at hturn
        subst hturn
        exact moveRobot_robots A robot _ _
      · simp only [Option.some.injEq] at hturn
        subst hturn
        rfl

theorem turnsLoop_reachable (A0 : Arena) (plan : RobotPtr → TurnPlan) (fuel : Nat)
    (entries : List (RobotPtr × (Int × Int))) :
    ∀ (A A1 : Arena) (progress progress1 : Bool), Arena.Reachable A0 A →
      (∀ e ∈ entries, e.1 ∈ A.robots) →
      Arena.turnsLoop plan fuel entries A progress = some (A1, progress1) →
      Arena.Reachable A0 A1 := by
  induction entries with
  | nil =>
    intro A A1 progress progress1 hA _ h
    simp only [Arena.turnsLoop, Option.some.injEq, Prod.mk.injEq] at h
    rw [← h.1]
    exact hA
  | cons e rest ih =>
    intro A A1 progress progress1 hA hmem h
    obtain ⟨p, prev⟩ := e
    simp only [Arena.turnsLoop] at h
    have hp : p ∈ A.robots := hmem (p, prev) (List.mem_cons_self _ _)
    have hrest : ∀ e ∈ rest, e.1 ∈ A.robots :=
      fun e he => hmem e (List.mem_cons_of_mem _ he)
    split_ifs at h with hdead
    · exact ih A A1 progress progress1 hA hrest h
    · cases hturn : A.simulateTurn p (plan p) fuel with
      | none => rw [hturn] at h; cases h
      | some A2 =>
        rw [hturn] at h
        simp only at h
        refine ih A2 A1 _ progress1 (Arena.Reachable.turn A A2 p (plan p) fuel hA hp hturn)
          ?_ h
        intro e he
        rw [simulateTurn_robots A A2 p (plan p) fuel hturn]
        exact hrest e he

theorem battleRound_reachable (A0 : Arena) (plans : Nat → RobotPtr → TurnPlan) (fuel : Nat)
    (s s1 : BattleState) (progress : Bool) (hs : Arena.Reachable A0 s.arena)
    (h : battleRound plans fuel s = some (s1, progress)) : Arena.Reachable A0 s1.arena := by
  unfold battleRound at h
  split at h
  · cases h
  · rename_i A1 progress1 hturns
    simp only [Option.some.injEq, Prod.mk.injEq] at h
    rw [← h.1]
    refine Arena.Reachable.sweep A1 (turnsLoop_reachable A0 _ fuel _ s.arena A1 false progress1
      hs ?_ hturns)
    intro e he
    obtain ⟨p, prev⟩ := e
    exact (List.of_mem_zip he).1

theorem battleLoop_reachable (A0 : Arena) (plans : Nat → RobotPtr → TurnPlan) (fuel : Nat)
    (n : Nat) :
    ∀ (s s' : BattleState) (a : Option Announcement), Arena.Reachable A0 s.arena →
      battleLoop plans fuel n s = BattleRun.finished s' a → Arena.Reachable A0 s'.arena := by
  induction n with
  | zero =>
    intro s s' a hs h
    obtain ⟨_, h2⟩ := battleLoop_zero plans fuel s s' a h
    obtain ⟨rfl, _⟩ := afterLoop_finished s s' a h2
    exact hs
  | succ n ih =>
    intro s s' a hs h
    rcases battleLoop_cases plans fuel n s s' a h with
      ⟨_, h2⟩ | ⟨_, s1, progress, hround, hrest⟩
    · obtain ⟨rfl, _⟩ := afterLoop_finished s s' a h2
      exact hs
    · have hs1 := battleRound_reachable A0 plans fuel s s1 progress hs hround
      rcases hrest with ⟨p, _, rfl, _⟩ | ⟨_, hloop⟩
      · exact hs1
      · exact ih s1 s' a hs1 hloop

/-- C21: let `A0` be a state in which the setup of `main` (constructor, `placeObstacles`,
`loadRobots`) returns.  In every state reachable from `A0` by turns of roster robots and
sweeps, no robot of the roster is recorded at a cell of kind Pit, so for every robot of the
roster `simulateTurn` agrees with `simulateTurn` without its "trapped in a pit" branch.
Every round of `startBattle` leads from a reachable state to a reachable state, and the
state in which `startBattle` returns is reachable. -/
theorem setup_never_on_pit (rows cols : Int) (heap : RobotPtr → RobotBase)
    (seed : Nat → Nat) (loaded : List (Option RobotPtr)) (fuel : Nat) (A0 : Arena)
    (hsetup : Arena.setup rows cols heap seed loaded fuel = some A0) :
    (∀ A : Arena, Arena.Reachable A0 A → ∀ p ∈ A.robots,
        (A.grid (A.heap p).get_current_location.1 (A.heap p).get_current_location.2).type
            ≠ CellType.OBSTACLE_PIT ∧
          ∀ (plan : TurnPlan) (fuel1 : Nat),
            A.simulateTurn p plan fuel1 = A.simulateTurnNoPit p plan fuel1) ∧
      (∀ (plans : Nat → RobotPtr → TurnPlan) (fuel1 : Nat) (s s1 : BattleState)
          (progress : Bool), Arena.Reachable A0 s.arena →
        battleRound plans fuel1 s = some (s1, progress) → Arena.Reachable A0 s1.arena) ∧
      (∀ (plans : Nat → RobotPtr → TurnPlan) (fuel1 : Nat) (s' : BattleState)
          (a : Option Announcement),
        A0.startBattle plans fuel1 = BattleRun.finished s' a →
        Arena.Reachable A0 s'.arena) := by
  have h0 := setup_noRobotOnPit rows cols heap seed loaded fuel A0 hsetup
  refine ⟨?_, ?_, ?_⟩
  · intro A hA p hp
    have hinv := reachable_noRobotOnPit A0 A h0 hA p hp
    exact ⟨hinv, fun plan fuel1 => simulateTurn_eq_noPit A p plan fuel1 hinv⟩
  · intro plans fuel1 s s1 progress hs h
    exact battleRound_reachable A0 plans fuel1 s s1 progress hs h
  · intro plans fuel1 s' a h
    exact battleLoop_reachable A0 plans fuel1 10000 _ s' a Arena.Reachable.start h

set_option maxRecDepth 1000000 in
/-- C21, witness: the setup of a 5 x 8 arena with the stream `3 n + 1` places pits only and
loads robots 0 and 1 (the second library fails to load); robot 1 stands next to a pit, and
no robot is recorded on one. -/
theorem setup_never_on_pit_witness :
    (Arena.setupOr demoArena
        (Arena.setup 5 8 demoHeap (fun n => 3 * n + 1) [some 0, none, some 1] 10)).robots
        = [0, 1] ∧
      ((Arena.setupOr demoArena
        (Arena.setup 5 8 demoHeap (fun n => 3 * n + 1) [some 0, none, some 1] 10)).grid
          3 7).type = CellType.OBSTACLE_PIT ∧
      ∀ p ∈ (Arena.setupOr demoArena
          (Arena.setup 5 8 demoHeap (fun n => 3 * n + 1) [some 0, none, some 1] 10)).robots,
        ((Arena.setupOr demoArena
          (Arena.setup 5 8 demoHeap (fun n => 3 * n + 1) [some 0, none, some 1] 10)).grid
            ((Arena.setupOr demoArena
              (Arena.setup 5 8 demoHeap (fun n => 3 * n + 1)
                [some 0, none, some 1] 10)).heap p).get_current_location.1
            ((Arena.setupOr demoArena
              (Arena.setup 5 8 demoHeap (fun n => 3 * n + 1)
                [some 0, none, some 1] 10)).heap p).get_current_location.2).type
          ≠ CellType.OBSTACLE_PIT :=
  ⟨by decide, by decide, fun p hp =>
    ((setup_never_on_pit 5 8 demoHeap (fun n => 3 * n + 1) [some 0, none, some 1] 10
      (Arena.setupOr demoArena
        (Arena.setup 5 8 demoHeap (fun n => 3 * n + 1) [some 0, none, some 1] 10))
      (by rfl)).1 _ Arena.Reachable.start p hp).1⟩
